import Mathlib

/-!
Verification development for the market-compass ingestion/reconciliation core.

The Python sources under services/api/app are shallowly embedded as executable
Lean definitions:

* machine floats are modelled as exact rationals (`Rat`); Python `round` /
  format-string rounding is modelled by exact rational rounding (tie-breaking
  differences of IEEE binary floats are not observable by any property proved
  here);
* Python strings are Lean `String`s; `str.lower()` / `str.upper()` are
  modelled on the ASCII range (every character outside `[a-z0-9-]` is removed
  by the key-normalization pipeline in any case);
* `dict` side-cars that the code reads back through `json.loads` are modelled
  as typed records (the `json.dumps`/`json.loads` round-trip is lossless for
  every field the code consumes);
* out-of-process effects (SHA-256 digests, HTTP calls, the LLM, Redis cache
  contents, DB exceptions) enter as explicit function parameters or
  environment records, so every theorem quantifies over all of their
  behaviours.
-/

namespace MarketCompass

/-! ## Python string primitives -/

/-- ASCII model of `str.lower()` applied to one character. -/
def pyLowerChar (c : Char) : Char :=
  if 'A' ≤ c ∧ c ≤ 'Z' then Char.ofNat (c.toNat + 32) else c

/-- ASCII model of `str.upper()` applied to one character. -/
def pyUpperChar (c : Char) : Char :=
  if 'a' ≤ c ∧ c ≤ 'z' then Char.ofNat (c.toNat - 32) else c

/-- Characters Python treats as whitespace (ASCII fragment): stripped by
`str.strip()` and matched by the regex class `\s`. -/
def pyIsSpace (c : Char) : Bool :=
  (c == ' ') || (c == '\t') || (c == '\n') || (c == '\r') ||
    (c == '\x0b') || (c == '\x0c')

/-- Characters matched by the regex class `[\s_]` used in `_normalize`. -/
def isWsOrUnderscore (c : Char) : Bool :=
  pyIsSpace c || (c == '_')

def isAsciiDigit (c : Char) : Bool := decide ('0' ≤ c) && decide (c ≤ '9')

def isLowerAlpha (c : Char) : Bool := decide ('a' ≤ c) && decide (c ≤ 'z')

/-- A character allowed in a normalized key body: `[a-z0-9]`. -/
def isLowerAlnum (c : Char) : Bool := isLowerAlpha c || isAsciiDigit c

/-- A character surviving `re.sub(r"[^a-z0-9-]", "", ...)`. -/
def isAllowedKeyChar (c : Char) : Bool := isLowerAlnum c || (c == '-')

/-- Remove the run of `p`-characters at both ends of a list
(model of `str.strip` / `str.strip("-")`). -/
def stripBoth (p : Char → Bool) (l : List Char) : List Char :=
  ((l.dropWhile p).reverse.dropWhile p).reverse

/-- Worker for `squashRuns`: `inRun` records whether the previous character
belonged to a run of `p`-characters (whose replacement was already emitted). -/
def squashRunsAux (p : Char → Bool) (rep : Char) : Bool → List Char → List Char
  | _, [] => []
  | inRun, c :: rest =>
      if p c then
        if inRun then squashRunsAux p rep true rest
        else rep :: squashRunsAux p rep true rest
      else c :: squashRunsAux p rep false rest

/-- Model of `re.sub(rx_run_of_p, rep, s)`: each maximal run of characters
satisfying `p` is replaced by the single character `rep`. -/
def squashRuns (p : Char → Bool) (rep : Char) (l : List Char) : List Char :=
  squashRunsAux p rep false l

def pyLowerStr (s : String) : String := ⟨s.data.map pyLowerChar⟩

def pyUpperStr (s : String) : String := ⟨s.data.map pyUpperChar⟩

/-- Model of `str.strip()`. -/
def pyStrip (s : String) : String := ⟨stripBoth pyIsSpace s.data⟩

/-! ## app/services/dedup.py -/

def isHyphen (c : Char) : Bool := c == '-'

/-- List-level body of `dedup._normalize`: lowercase, strip, `[\s_]+ → "-"`,
drop everything outside `[a-z0-9-]`, collapse `-+`, trim `-`. -/
def normalizeChars (l : List Char) : List Char :=
  stripBoth isHyphen
    (squashRuns isHyphen '-'
      ((squashRuns isWsOrUnderscore '-'
          (stripBoth pyIsSpace (l.map pyLowerChar))).filter isAllowedKeyChar))

/-- `dedup._normalize`.  (The `if not value` early return of the source
returns `""`, which this pipeline also yields.) -/
def dedupNormalize (s : String) : String := ⟨normalizeChars s.data⟩

/-- The `SkuAttributes` TypedDict (`total=False`): absent keys are `none`. -/
structure SkuAttributes where
  model : Option String := none
  storage : Option String := none
  color : Option String := none
  condition : Option String := none
  sim_variant : Option String := none
  lock_state : Option String := none
  region_variant : Option String := none
deriving DecidableEq

/-- Python truthiness of an optional string (`None` and `""` are falsy). -/
def optTruthy : Option String → Bool
  | none => false
  | some s => !(s = "")

/-- Model of `sep.join(parts)` for a one-character separator. -/
def joinParts (sep : Char) : List String → List Char
  | [] => []
  | [p] => p.data
  | p :: q :: rest => p.data ++ sep :: joinParts sep (q :: rest)

def pyJoin (sep : Char) (ps : List String) : String := ⟨joinParts sep ps⟩

/-- The part list built by `compute_sku_key`: the four required attributes
(`condition` defaulting to `"new"`) followed by optional components appended
when truthy, in source order. -/
def skuKeyParts (attrs : SkuAttributes) : List String :=
  [dedupNormalize (attrs.model.getD ""),
   dedupNormalize (attrs.storage.getD ""),
   dedupNormalize (attrs.color.getD ""),
   dedupNormalize (attrs.condition.getD "new")]
  ++ (if optTruthy attrs.sim_variant then
        [dedupNormalize (attrs.sim_variant.getD "")] else [])
  ++ (if optTruthy attrs.lock_state then
        [dedupNormalize (attrs.lock_state.getD "")] else [])
  ++ (if optTruthy attrs.region_variant then
        [dedupNormalize (attrs.region_variant.getD "")] else [])

/-- `dedup.compute_sku_key`: join the non-empty normalized parts with `-`. -/
def compute_sku_key (attrs : SkuAttributes) : String :=
  pyJoin '-' ((skuKeyParts attrs).filter (fun p => !(p = "")))

/-! Kernel-reducible rational helpers.  The core `Rat` field operations are
irreducible, which would block closed-term evaluation of the embedding in
witnesses; these work on `num`/`den` directly and agree with the field
operations (see `qMul_eq_mul` / `qDiv_eq_div`). -/

def ratOfNat (n : Nat) : Rat := mkRat n 1

def qMul (a b : Rat) : Rat := mkRat (a.num * b.num) (a.den * b.den)

def qDiv (a b : Rat) : Rat :=
  mkRat (if 0 ≤ b.num then a.num * b.den else -(a.num * b.den))
    (a.den * b.num.natAbs)

/-- Model of Python `int(x)`: truncation toward zero. -/
def ratTrunc (x : Rat) : Int := x.num.tdiv x.den

theorem ratOfNat_eq (n : Nat) : ratOfNat n = (n : Rat) := by
  simp [ratOfNat]

theorem qMul_eq_mul (a b : Rat) : qMul a b = a * b := by
  conv_rhs => rw [← Rat.num_div_den a, ← Rat.num_div_den b, div_mul_div_comm]
  rw [qMul, Rat.mkRat_eq_div]
  push_cast
  rfl

theorem qDiv_eq_div (a b : Rat) : qDiv a b = a / b := by
  have had : ((a.den : ℚ)) ≠ 0 := by
    exact_mod_cast a.den_nz
  have hbd : ((b.den : ℚ)) ≠ 0 := by
    exact_mod_cast b.den_nz
  by_cases hb0 : b.num = 0
  · have hb : b = 0 := Rat.zero_iff_num_zero.mpr hb0
    rw [qDiv, hb0, hb]
    simp
  · have hbn : ((b.num : ℚ)) ≠ 0 := by
      exact_mod_cast hb0
    rw [qDiv, Rat.mkRat_eq_div]
    conv_rhs => rw [← Rat.num_div_den a, ← Rat.num_div_den b]
    by_cases hpos : 0 ≤ b.num
    · rw [if_pos hpos]
      have hcast : ((b.num.natAbs : Nat) : ℚ) = (b.num : ℚ) := by
        have habs : |b.num| = b.num := abs_of_nonneg hpos
        rw [Int.cast_natAbs, habs]
      push_cast
      rw [hcast]
      field_simp
      try ring
    · rw [if_neg hpos]
      have hcast : ((b.num.natAbs : Nat) : ℚ) = -(b.num : ℚ) := by
        have habs : |b.num| = -b.num := abs_of_nonpos (le_of_not_le hpos)
        rw [Int.cast_natAbs, habs]
        push_cast
        rfl
      push_cast
      rw [hcast, mul_neg, neg_div_neg_eq]
      field_simp
      try ring

theorem ratTrunc_eq_floor {x : Rat} (hx : 0 ≤ x) : ratTrunc x = ⌊x⌋ := by
  rw [ratTrunc, Rat.floor_def]
  have hnum : 0 ≤ x.num := Rat.num_nonneg.mpr hx
  rw [Int.tdiv_eq_ediv hnum (Int.ofNat_nonneg x.den)]

/-- Exact-rational model of `round(price * 100)`: the price in whole cents,
`⌊(200·num + den) / (2·den)⌋`.  Python's round-half-even on binary floats is
approximated by round-half-up (no proved property depends on ties). -/
def priceCents (x : Rat) : Int := Int.fdiv (200 * x.num + x.den) (2 * x.den)

/-- Exact-rational model of `round(x, 2)`. -/
def round2 (x : Rat) : Rat := mkRat (priceCents x) 100

/-- Exact-rational model of `f"{price:.2f}"`: the decimal rendering of the
price rounded to two fraction digits. -/
def fmtPrice2 (price : Rat) : String :=
  let cents : Int := priceCents price
  let sign : String := if cents < 0 then "-" else ""
  let n : Nat := cents.natAbs
  let fracPart : Nat := n % 100
  let fracStr : String :=
    if fracPart < 10 then "0" ++ toString fracPart else toString fracPart
  sign ++ toString (n / 100) ++ "." ++ fracStr

/-- `dedup.compute_offer_dedup_key`; `sha256hex` abstracts
`hashlib.sha256(url.encode()).hexdigest()`, so every theorem below holds for
any digest function. -/
def compute_offer_dedup_key (sha256hex : String → String)
    (merchant : String) (price : Rat) (currency : String)
    (url : Option String) : String :=
  let parts : List String :=
    [dedupNormalize merchant, fmtPrice2 price, pyUpperStr currency]
  let parts := if optTruthy url then
      parts ++ [(sha256hex (url.getD "")).take 8] else parts
  pyJoin ':' parts

/-! ## The sku-key shape `^[a-z0-9]+(-[a-z0-9]+)*$` as an automaton -/

/-- Acceptance of the regex tail after one `[a-z0-9]` character has been
consumed: state "inside a run"; a hyphen must be followed by `[a-z0-9]`. -/
def skuKeyRunAux : List Char → Bool
  | [] => true
  | [c] => isLowerAlnum c
  | c :: d :: rest =>
      if isLowerAlnum c then skuKeyRunAux (d :: rest)
      else if c = '-' then isLowerAlnum d && skuKeyRunAux rest
      else false

/-- Decide membership in the language of `^[a-z0-9]+(-[a-z0-9]+)*$` over a
character list. -/
def keyPatternChars : List Char → Bool
  | [] => false
  | c :: rest => isLowerAlnum c && skuKeyRunAux rest

/-- Decide membership in the language of `^[a-z0-9]+(-[a-z0-9]+)*$`. -/
def matchesSkuKeyPattern (s : String) : Bool := keyPatternChars s.data

/-! ### Shape lemmas about the normalization pipeline (for C9) -/

theorem squashRunsAux_mem {p : Char → Bool} {rep c : Char} :
    ∀ {b : Bool} {l : List Char},
      c ∈ squashRunsAux p rep b l → c = rep ∨ c ∈ l := by
  intro b l
  induction l generalizing b with
  | nil => intro h; simp [squashRunsAux] at h
  | cons a rest ih =>
      intro h
      rw [squashRunsAux] at h
      by_cases hpa : p a
      · rw [if_pos hpa] at h
        cases b with
        | true =>
            rw [if_pos rfl] at h
            rcases ih h with h | h
            · exact Or.inl h
            · exact Or.inr (List.mem_cons_of_mem a h)
        | false =>
            rw [if_neg (by simp)] at h
            rcases List.mem_cons.mp h with h | h
            · exact Or.inl h
            · rcases ih h with h | h
              · exact Or.inl h
              · exact Or.inr (List.mem_cons_of_mem a h)
      · rw [if_neg hpa] at h
        rcases List.mem_cons.mp h with h | h
        · exact Or.inr (h ▸ List.mem_cons_self a rest)
        · rcases ih h with h | h
          · exact Or.inl h
          · exact Or.inr (List.mem_cons_of_mem a h)

theorem squashRuns_mem {p : Char → Bool} {rep c : Char} {l : List Char}
    (h : c ∈ squashRuns p rep l) : c = rep ∨ c ∈ l :=
  squashRunsAux_mem h

/-- In the in-run state the next emitted character never satisfies `p`. -/
theorem squashRunsAux_head_inRun {p : Char → Bool} {rep : Char} :
    ∀ l : List Char, ∀ c ∈ (squashRunsAux p rep true l).head?, p c = false := by
  intro l
  induction l with
  | nil => intro c hc; simp [squashRunsAux] at hc
  | cons a rest ih =>
      intro c hc
      rw [squashRunsAux] at hc
      by_cases hpa : p a
      · rw [if_pos hpa, if_pos rfl] at hc
        exact ih c hc
      · rw [if_neg hpa] at hc
        simp only [List.head?_cons, Option.mem_def, Option.some_inj] at hc
        subst hc
        simpa using hpa

theorem squashRuns_head_not {p : Char → Bool} {rep : Char} {m : List Char}
    (hm : ∀ c ∈ m.head?, p c = false) :
    ∀ c ∈ (squashRuns p rep m).head?, p c = false := by
  cases m with
  | nil => intro c hc; simp [squashRuns, squashRunsAux] at hc
  | cons a t =>
      intro c hc
      have ha : p a = false := hm a rfl
      rw [squashRuns, squashRunsAux, if_neg (by simp [ha])] at hc
      simp only [List.head?_cons, Option.mem_def, Option.some_inj] at hc
      subst hc
      exact ha

theorem squashRunsAux_chain (p : Char → Bool) (rep : Char) :
    ∀ (l : List Char) (b : Bool),
      (squashRunsAux p rep b l).Chain' (fun a b => ¬(p a = true ∧ p b = true)) := by
  intro l
  induction l with
  | nil => intro b; simp [squashRunsAux]
  | cons a rest ih =>
      intro b
      rw [squashRunsAux]
      by_cases hpa : p a
      · rw [if_pos hpa]
        cases b with
        | true => rw [if_pos rfl]; exact ih true
        | false =>
            rw [if_neg (by simp)]
            refine (ih true).cons' ?_
            intro y hy
            have := @squashRunsAux_head_inRun p rep rest y hy
            simp [this]
      · rw [if_neg hpa]
        refine (ih false).cons' ?_
        intro y _
        simp only [Bool.not_eq_true] at hpa
        simp [hpa]

theorem squashRuns_chain (p : Char → Bool) (rep : Char) (l : List Char) :
    (squashRuns p rep l).Chain' (fun a b => ¬(p a = true ∧ p b = true)) :=
  squashRunsAux_chain p rep l false

theorem stripBoth_sublist (p : Char → Bool) (l : List Char) :
    List.Sublist (stripBoth p l) l := by
  have h1 : List.Sublist (List.dropWhile p l) l := (List.dropWhile_suffix p).sublist
  have h2 : List.Sublist (List.dropWhile p (List.dropWhile p l).reverse)
      (List.dropWhile p l).reverse := (List.dropWhile_suffix p).sublist
  have h3 := h2.reverse
  rw [List.reverse_reverse] at h3
  exact h3.trans h1

theorem stripBoth_head_not {p : Char → Bool} {l : List Char} :
    ∀ c ∈ (stripBoth p l).head?, p c = false := by
  intro c hc
  unfold stripBoth at hc
  rw [List.head?_reverse] at hc
  set A := List.dropWhile p l with hA
  set B := List.dropWhile p A.reverse with hB
  have hBne : B ≠ [] := by
    intro h
    rw [h] at hc
    simp at hc
  have hsplit : List.takeWhile p A.reverse ++ B = A.reverse :=
    List.takeWhile_append_dropWhile p A.reverse
  have hlast : A.reverse.getLast? = B.getLast? := by
    rw [← hsplit, List.getLast?_append]
    cases hBl : B.getLast? with
    | none => exact absurd (List.getLast?_eq_none_iff.mp hBl) hBne
    | some x => simp
  rw [← hlast, List.getLast?_reverse] at hc
  have h2 := List.head?_dropWhile_not p l
  rw [← hA, Option.mem_def.mp hc] at h2
  exact h2

theorem stripBoth_getLast_not {p : Char → Bool} {l : List Char} :
    ∀ c ∈ (stripBoth p l).getLast?, p c = false := by
  intro c hc
  unfold stripBoth at hc
  rw [List.getLast?_reverse] at hc
  have h2 := List.head?_dropWhile_not p (List.dropWhile p l).reverse
  rw [Option.mem_def.mp hc] at h2
  exact h2

theorem stripBoth_chain {R : Char → Char → Prop} {p : Char → Bool}
    {l : List Char} (h : l.Chain' R) : (stripBoth p l).Chain' R := by
  have h1 : (List.dropWhile p l).Chain' R := h.suffix (List.dropWhile_suffix p)
  have h2 : (List.dropWhile p l).reverse.Chain' (flip R) := by
    rw [List.chain'_reverse]
    simpa [Function.flip_def] using h1
  have h3 : (List.dropWhile p (List.dropWhile p l).reverse).Chain' (flip R) :=
    h2.suffix (List.dropWhile_suffix p)
  unfold stripBoth
  rw [List.chain'_reverse]
  simpa [Function.flip_def] using h3

/-- Bridging lemma: a non-empty list of allowed characters with no hyphen at
either end and no two adjacent hyphens is accepted by the tail automaton. -/
theorem skuKeyRunAux_of_clean :
    ∀ l : List Char, (∀ c ∈ l, isAllowedKeyChar c = true) →
      (∀ c ∈ l.getLast?, isHyphen c = false) →
      l.Chain' (fun a b => ¬(isHyphen a = true ∧ isHyphen b = true)) →
      skuKeyRunAux l = true := by
  intro l
  induction l using skuKeyRunAux.induct with
  | case1 => intro _ _ _; rfl
  | case2 c =>
      intro hall hlast _
      have h1 := hall c (by simp)
      have h2 := hlast c (by simp)
      rw [skuKeyRunAux]
      simp only [isAllowedKeyChar, Bool.or_eq_true] at h1
      rcases h1 with h1 | h1
      · exact h1
      · rw [isHyphen, h1] at h2; simp at h2
  | case3 c d rest hc ih =>
      intro hall hlast hchain
      rw [skuKeyRunAux, if_pos hc]
      refine ih (fun e he => hall e (List.mem_cons_of_mem c he)) ?_ hchain.tail
      intro e he
      exact hlast e (by rwa [List.getLast?_cons_cons])
  | case4 d rest hc ih =>
      intro hall hlast hchain
      have hcd := (List.chain'_cons.mp hchain).1
      have hd : isHyphen d = false := by
        by_contra h
        exact hcd ⟨rfl, by simpa using h⟩
      have hdal : isLowerAlnum d = true := by
        have h1 := hall d (by simp)
        simp only [isAllowedKeyChar, Bool.or_eq_true] at h1
        rcases h1 with h1 | h1
        · exact h1
        · rw [isHyphen, h1] at hd; simp at hd
      rw [skuKeyRunAux, if_neg hc, if_pos rfl, hdal, Bool.true_and]
      cases rest with
      | nil => rfl
      | cons e t =>
          refine ih (fun f hf => hall f (by simp [hf])) ?_ hchain.tail.tail
          intro f hf
          refine hlast f ?_
          rw [List.getLast?_cons_cons, List.getLast?_cons_cons]
          exact hf
  | case5 c d rest hc hne =>
      intro hall _ _
      have h1 := hall c (by simp)
      simp only [isAllowedKeyChar, Bool.or_eq_true] at h1
      rcases h1 with h1 | h1
      · exact absurd h1 hc
      · exact absurd (by simpa using h1) hne

/-- Every non-empty output of the `_normalize` pipeline matches the sku-key
shape. -/
theorem normalizeChars_pattern (l : List Char) (h : normalizeChars l ≠ []) :
    keyPatternChars (normalizeChars l) = true := by
  unfold normalizeChars at h ⊢
  set l3 := (squashRuns isWsOrUnderscore '-'
      (stripBoth pyIsSpace (l.map pyLowerChar))).filter isAllowedKeyChar
    with hl3
  set l4 := squashRuns isHyphen '-' l3 with hl4
  set l5 := stripBoth isHyphen l4 with hl5
  have hall : ∀ c ∈ l5, isAllowedKeyChar c = true := by
    intro c hc
    have hmem : c ∈ l4 := (stripBoth_sublist _ l4).mem hc
    rcases squashRuns_mem hmem with h' | h'
    · subst h'; rfl
    · exact List.of_mem_filter h'
  have hchain : l5.Chain' (fun a b => ¬(isHyphen a = true ∧ isHyphen b = true)) :=
    stripBoth_chain (squashRuns_chain isHyphen '-' l3)
  cases hm : l5 with
  | nil => exact absurd hm h
  | cons c rest =>
      have hhead : isHyphen c = false := by
        have := @stripBoth_head_not isHyphen l4 c (by rw [← hl5, hm]; rfl)
        exact this
      have hcal : isLowerAlnum c = true := by
        have h1 := hall c (by rw [hm]; simp)
        simp only [isAllowedKeyChar, Bool.or_eq_true] at h1
        rcases h1 with h1 | h1
        · exact h1
        · rw [isHyphen, h1] at hhead; simp at hhead
      have hrun : skuKeyRunAux rest = true := by
        refine skuKeyRunAux_of_clean rest
          (fun d hd => hall d (by rw [hm]; simp [hd])) ?_ (hm ▸ hchain).tail
        intro d hd
        refine @stripBoth_getLast_not isHyphen l4 d ?_
        rw [← hl5, hm]
        cases rest with
        | nil => simp at hd
        | cons e t => rw [List.getLast?_cons_cons]; exact hd
      rw [keyPatternChars, hcal, hrun]
      rfl

/-- Automaton composition: an accepted run, a hyphen, an alnum character and
another accepted run concatenate to an accepted run. -/
theorem skuKeyRunAux_append :
    ∀ xs : List Char, skuKeyRunAux xs = true →
      ∀ (c : Char) (q : List Char), isLowerAlnum c = true →
        skuKeyRunAux q = true →
        skuKeyRunAux (xs ++ '-' :: c :: q) = true := by
  intro xs
  induction xs using skuKeyRunAux.induct with
  | case1 =>
      intro _ c q hc hq
      rw [List.nil_append, skuKeyRunAux,
        if_neg (by decide : ¬isLowerAlnum '-' = true), if_pos rfl, hc, hq]
      rfl
  | case2 a =>
      intro hxs c q hc hq
      rw [skuKeyRunAux] at hxs
      show skuKeyRunAux (a :: '-' :: c :: q) = true
      rw [skuKeyRunAux, if_pos hxs, skuKeyRunAux,
        if_neg (by decide : ¬isLowerAlnum '-' = true), if_pos rfl, hc, hq]
      rfl
  | case3 a d rest ha ih =>
      intro hxs c q hc hq
      rw [skuKeyRunAux, if_pos ha] at hxs
      show skuKeyRunAux (a :: d :: (rest ++ '-' :: c :: q)) = true
      rw [skuKeyRunAux, if_pos ha]
      exact ih hxs c q hc hq
  | case4 d rest ha ih =>
      intro hxs c q hc hq
      rw [skuKeyRunAux, if_neg ha, if_pos rfl, Bool.and_eq_true] at hxs
      show skuKeyRunAux ('-' :: d :: (rest ++ '-' :: c :: q)) = true
      rw [skuKeyRunAux, if_neg ha, if_pos rfl, hxs.1, Bool.true_and]
      exact ih hxs.2 c q hc hq
  | case5 a d rest ha hane =>
      intro hxs c q hc hq
      rw [skuKeyRunAux, if_neg ha, if_neg hane] at hxs
      simp at hxs

/-- Joining pattern-matching parts with `-` yields a pattern-matching key. -/
theorem keyPattern_join :
    ∀ ps : List String, (∀ p ∈ ps, matchesSkuKeyPattern p = true) →
      ps ≠ [] → matchesSkuKeyPattern (pyJoin '-' ps) = true := by
  intro ps
  induction ps with
  | nil => intro _ h; exact absurd rfl h
  | cons p rest ih =>
      intro hall _
      have hp : matchesSkuKeyPattern p = true := hall p (by simp)
      cases rest with
      | nil =>
          show keyPatternChars (joinParts '-' [p]) = true
          rw [joinParts]
          exact hp
      | cons q rest2 =>
          have hrest : matchesSkuKeyPattern (pyJoin '-' (q :: rest2)) = true :=
            ih (fun r hr => hall r (List.mem_cons_of_mem p hr)) (by simp)
          show keyPatternChars (joinParts '-' (p :: q :: rest2)) = true
          rw [joinParts]
          unfold matchesSkuKeyPattern at hp hrest
          cases hd : p.data with
          | nil => rw [hd, keyPatternChars] at hp; exact absurd hp (by simp)
          | cons c cs =>
              rw [hd, keyPatternChars, Bool.and_eq_true] at hp
              cases hj : joinParts '-' (q :: rest2) with
              | nil =>
                  exfalso
                  have hjd : (pyJoin '-' (q :: rest2)).data = [] := hj
                  rw [hjd, keyPatternChars] at hrest
                  exact absurd hrest (by simp)
              | cons d ds =>
                  have hjd : (pyJoin '-' (q :: rest2)).data = d :: ds := hj
                  rw [hjd, keyPatternChars, Bool.and_eq_true] at hrest
                  rw [List.cons_append, keyPatternChars, hp.1, Bool.true_and]
                  exact skuKeyRunAux_append cs hp.2 d ds hrest.1 hrest.2

/-- Every entry of the part list is the `_normalize` image of some string. -/
theorem mem_skuKeyParts_normalized {attrs : SkuAttributes} {q : String}
    (hq : q ∈ skuKeyParts attrs) : ∃ s, q = dedupNormalize s := by
  unfold skuKeyParts at hq
  rcases List.mem_append.mp hq with hq | hq
  · rcases List.mem_append.mp hq with hq | hq
    · rcases List.mem_append.mp hq with hq | hq
      · simp only [List.mem_cons, List.not_mem_nil, or_false] at hq
        rcases hq with h | h | h | h
        · exact ⟨_, h⟩
        · exact ⟨_, h⟩
        · exact ⟨_, h⟩
        · exact ⟨_, h⟩
      · revert hq; split <;> intro hq
        · simp only [List.mem_singleton] at hq
          exact ⟨_, hq⟩
        · simp at hq
    · revert hq; split <;> intro hq
      · simp only [List.mem_singleton] at hq
        exact ⟨_, hq⟩
      · simp at hq
  · revert hq; split <;> intro hq
    · simp only [List.mem_singleton] at hq
      exact ⟨_, hq⟩
    · simp at hq

/-- C9 (amended).  `compute_sku_key` is a pure deterministic function, and
whenever its output is non-empty it matches `^[a-z0-9]+(-[a-z0-9]+)*$`.  The
unamended claim ("the output always matches the pattern, in particular is
non-empty") fails: when every attribute normalizes to the empty string the
function returns `""` (see the counterexample). -/
theorem compute_sku_key_deterministic_and_shaped :
    (∀ a b : SkuAttributes, a = b → compute_sku_key a = compute_sku_key b) ∧
    ∀ attrs : SkuAttributes, compute_sku_key attrs ≠ "" →
      matchesSkuKeyPattern (compute_sku_key attrs) = true := by
  constructor
  · intro a b h
    exact congrArg compute_sku_key h
  · intro attrs hne
    unfold compute_sku_key at hne ⊢
    refine keyPattern_join _ ?_ ?_
    · intro p hp
      have hpne : ¬(p = "") := by
        have := List.of_mem_filter hp
        simpa using this
      obtain ⟨s, rfl⟩ := mem_skuKeyParts_normalized (List.mem_of_mem_filter hp)
      have hdata : normalizeChars s.data ≠ [] := by
        intro h0
        apply hpne
        show (⟨normalizeChars s.data⟩ : String) = ""
        rw [h0]
      exact normalizeChars_pattern s.data hdata
    · intro h0
      apply hne
      rw [h0]
      rfl

/-- C9 counterexample: an attribute record whose parts all normalize to the
empty string (here `condition = "?"`, every other key absent) yields the
empty sku key, which does not match `^[a-z0-9]+(-[a-z0-9]+)*$`. -/
theorem compute_sku_key_empty_counterexample :
    compute_sku_key { condition := some "?" } = "" ∧
    matchesSkuKeyPattern (compute_sku_key { condition := some "?" }) = false :=
  ⟨rfl, rfl⟩

/-- Witness for the amended C9 theorem at a concrete attribute record. -/
theorem compute_sku_key_shaped_witness :
    compute_sku_key
        { model := some "iPhone 16 Pro", storage := some "256GB",
          color := some "Black", condition := some "new" } =
      compute_sku_key
        { model := some "iPhone 16 Pro", storage := some "256GB",
          color := some "Black", condition := some "new" } ∧
    matchesSkuKeyPattern (compute_sku_key
        { model := some "iPhone 16 Pro", storage := some "256GB",
          color := some "Black", condition := some "new" }) = true :=
  ⟨compute_sku_key_deterministic_and_shaped.1 _ _ rfl,
   compute_sku_key_deterministic_and_shaped.2 _ (by decide)⟩

/-! ## app/services/fx.py -/

structure FxRates where
  base : String
  timestamp : Int
  rates : List (String × Rat)
deriving DecidableEq

inductive FxErr
  | fxError
deriving DecidableEq

/-- Outcomes of the two possible `get_latest_fx_rates` calls that
`convert_to_usd` can make (cache-or-upstream, and forced refresh); an
`error` models any exception raised by the fetch. -/
structure FxEnv where
  fetchCached : Except FxErr FxRates
  fetchForced : Except FxErr FxRates

/-- `fx.rates.get(currency)`. -/
def lookupRate (fx : FxRates) (currency : String) : Option Rat :=
  fx.rates.lookup currency

/-- Python truthiness test `not rate or rate <= 0` on an optional float. -/
def rateBad : Option Rat → Bool
  | none => true
  | some v => decide (v ≤ 0)

/-- The `retry_on_missing_rate` branch of `convert_to_usd`: on a missing or
non-positive rate it fetches once with `force_refresh=True` and re-runs the
lookup with retries disabled (the recursive call of the source is inlined;
it cannot fetch again because its `retry_on_missing_rate` is `False`).
The second component counts forced fetches. -/
def fxRetry (env : FxEnv) (amount : Rat) (cur : String) (retry : Bool) :
    Except FxErr Rat × Nat :=
  if retry then
    match env.fetchForced with
    | .error e => (.error e, 1)
    | .ok fresh =>
        match lookupRate fresh cur with
        | some r => if r ≤ 0 then (.error .fxError, 1) else (.ok (qDiv amount r), 1)
        | none => (.error .fxError, 1)
  else (.error .fxError, 0)

/-- `fx = rates or await get_latest_fx_rates(base="USD")` (an `FxRates`
value is always truthy). -/
def ratesOrCached (env : FxEnv) : Option FxRates → Except FxErr FxRates
  | some fx => .ok fx
  | none => env.fetchCached

/-- `fx.convert_to_usd` (1 USD = rates[CCY] units of CCY, so USD = amount /
rate); errors model raised exceptions (`FxError` or a failed fetch). -/
def convert_to_usd (env : FxEnv) (amount : Rat) (currency : String)
    (rates : Option FxRates) (retry_on_missing_rate : Bool) :
    Except FxErr Rat × Nat :=
  if pyUpperStr currency = "USD" then (.ok amount, 0)
  else
    match ratesOrCached env rates with
    | .error e => (.error e, 0)
    | .ok fx =>
        match lookupRate fx (pyUpperStr currency) with
        | some r =>
            if r ≤ 0 then fxRetry env amount (pyUpperStr currency) retry_on_missing_rate
            else (.ok (qDiv amount r), 0)
        | none => fxRetry env amount (pyUpperStr currency) retry_on_missing_rate

/-- `reconciliation._convert_price_usd`: USD passes through (rounded to two
digits), otherwise a conversion is attempted only when the run-level rates
were fetched; any exception yields `none` (the row later counts as
`skipped_fx`). -/
def convert_price_usd (env : FxEnv) (price_local : Rat) (currency : String)
    (fx_rates : Option FxRates) : Option Rat :=
  if pyUpperStr currency = "USD" then some (round2 price_local)
  else
    match fx_rates with
    | none => none
    | some fx =>
        match (convert_to_usd env price_local (pyUpperStr currency)
            (some fx) true).1 with
        | .ok usd => some (round2 usd)
        | .error _ => none

/-! ## app/services/llm_parser.py -/

/-- The `LlmMatch` pydantic model. -/
structure LlmMatch where
  sku_key : String
  match_confidence : Rat
  reason : Option String := none
deriving DecidableEq

/-- Typed model of a decoded JSON payload as validated by
`LlmParseResponse`; `matchObj = none` covers a missing or structurally
invalid `match` member (pydantic would raise `ValidationError`). -/
structure LlmPayload where
  is_accessory : Bool := false
  is_bundle : Bool := false
  is_contract : Bool := false
  matchObj : Option LlmMatch := none
deriving DecidableEq

structure LlmChooseSkuResult where
  sku_key : String
  match_confidence : Rat
  raw : LlmPayload
deriving DecidableEq

/-- `llm_parser._validate_choice`: pydantic validation (the `match_confidence`
field carries `ge=0.0, le=1.0`) followed by the candidate-membership check. -/
def validate_choice (payload : LlmPayload) (candidates : List String) :
    Option LlmChooseSkuResult :=
  match payload.matchObj with
  | none => none
  | some m =>
      if ¬(0 ≤ m.match_confidence ∧ m.match_confidence ≤ 1) then none
      else if m.sku_key ∈ candidates then
        some ⟨m.sku_key, m.match_confidence, payload⟩
      else none

def dedupFirstAux : List String → List String → List String
  | _, [] => []
  | seen, c :: rest =>
      if c ∈ seen then dedupFirstAux seen rest
      else c :: dedupFirstAux (c :: seen) rest

/-- `list(dict.fromkeys(l))`: drop duplicates keeping first occurrences. -/
def dedupFirst (l : List String) : List String := dedupFirstAux [] l

/-- External state observed by one `choose_sku_key_from_candidates` call.
`parseJson` abstracts `_extract_first_json_object` (a `none` result covers
both unparseable text and the falsy empty dict); `httpOutcome` is the
upstream chat-completions call: `error status` for `HTTPStatusError` /
timeout / transport errors, `ok text` for the extracted message content. -/
structure LlmCallEnv where
  llm_enabled : Bool
  openai_api_key : String
  cache1 : Option String
  lockAcquired : Bool
  cache2 : Option String
  httpOutcome : Except Nat String
  parseJson : String → Option LlmPayload

/-- One cache probe of `choose_sku_key_from_candidates`: a truthy cached
string whose parsed payload validates against the candidates short-circuits
the call. -/
def cacheTry (parse : String → Option LlmPayload) (cached : Option String)
    (cands : List String) : Option LlmChooseSkuResult :=
  match cached with
  | none => none
  | some s =>
      if s = "" then none
      else
        match parse s with
        | none => none
        | some payload => validate_choice payload cands

/-- Body of `choose_sku_key_from_candidates` after the guard clauses, over
the cleaned candidate list: cache probe, single-flight lock, second cache
probe, then at most one upstream call.  The second component counts upstream
HTTP attempts. -/
def chooseCore (env : LlmCallEnv) (cands : List String) :
    Option LlmChooseSkuResult × Nat :=
  match cacheTry env.parseJson env.cache1 cands with
  | some r => (some r, 0)
  | none =>
      if ¬env.lockAcquired then (none, 0)
      else
        match cacheTry env.parseJson env.cache2 cands with
        | some r => (some r, 0)
        | none =>
            match env.httpOutcome with
            | .error _ => (none, 1)
            | .ok text =>
                (validate_choice ((env.parseJson text).getD {}) cands, 1)

/-- `llm_parser.choose_sku_key_from_candidates`.  Redis reads, the lock and
the cache write are modelled as the environment values; every upstream
failure inside the source try-block maps to `httpOutcome = error`. -/
def choose_sku_key_from_candidates (env : LlmCallEnv) (title : String)
    (second_hand_condition : Option String) (merchant_name : Option String)
    (candidates : List String) : Option LlmChooseSkuResult × Nat :=
  if ¬env.llm_enabled ∨ env.openai_api_key = "" then (none, 0)
  else if pyStrip title = "" then (none, 0)
  else if candidates = [] then (none, 0)
  else if dedupFirst ((candidates.map pyStrip).filter (fun c => !(c = ""))) = []
    then (none, 0)
  else
    chooseCore env (dedupFirst ((candidates.map pyStrip).filter (fun c => !(c = ""))))

theorem dedupFirstAux_mem :
    ∀ (seen l : List String) (x : String), x ∈ dedupFirstAux seen l → x ∈ l := by
  intro seen l
  induction l generalizing seen with
  | nil => intro x h; simp [dedupFirstAux] at h
  | cons c rest ih =>
      intro x h
      rw [dedupFirstAux] at h
      split at h
      · exact List.mem_cons_of_mem c (ih _ x h)
      · rcases List.mem_cons.mp h with h | h
        · exact h ▸ List.mem_cons_self c rest
        · exact List.mem_cons_of_mem c (ih _ x h)

theorem validate_choice_some {payload : LlmPayload} {cands : List String}
    {r : LlmChooseSkuResult} (h : validate_choice payload cands = some r) :
    r.sku_key ∈ cands ∧ 0 ≤ r.match_confidence ∧ r.match_confidence ≤ 1 := by
  unfold validate_choice at h
  split at h
  · exact absurd h (by simp)
  · rename_i m _
    split at h
    · exact absurd h (by simp)
    · rename_i hb
      split at h
      · rename_i hmem
        simp only [Option.some_inj] at h
        subst h
        exact ⟨hmem, not_not.mp hb⟩
      · exact absurd h (by simp)

theorem cacheTry_some {parse : String → Option LlmPayload}
    {cached : Option String} {cands : List String} {r : LlmChooseSkuResult}
    (h : cacheTry parse cached cands = some r) :
    r.sku_key ∈ cands ∧ 0 ≤ r.match_confidence ∧ r.match_confidence ≤ 1 := by
  unfold cacheTry at h
  split at h
  · exact absurd h (by simp)
  · split at h
    · exact absurd h (by simp)
    · split at h
      · exact absurd h (by simp)
      · exact validate_choice_some h

theorem chooseCore_some {env : LlmCallEnv} {cands : List String}
    {r : LlmChooseSkuResult} (h : (chooseCore env cands).1 = some r) :
    r.sku_key ∈ cands ∧ 0 ≤ r.match_confidence ∧ r.match_confidence ≤ 1 := by
  unfold chooseCore at h
  split at h
  · rename_i r1 heq
    simp only [Option.some_inj] at h
    subst h
    exact cacheTry_some heq
  · split at h
    · simp at h
    · split at h
      · rename_i r2 heq
        simp only [Option.some_inj] at h
        subst h
        exact cacheTry_some heq
      · split at h
        · simp at h
        · simp only at h
          exact validate_choice_some h

/-- C2 (amended).  For every environment and input,
`choose_sku_key_from_candidates` returns either `none` or a result whose
`sku_key` is the whitespace-strip of one of the provided candidates — in
particular exactly one of them whenever no candidate carries surrounding
whitespace — and whose `match_confidence` lies in `[0, 1]`; this holds for
cache hits and fresh LLM calls alike.  (The unamended "exactly one of the
provided candidates" fails for padded candidates, see the counterexample:
the source strips candidates before validating.) -/
theorem choose_result_within_candidates :
    ∀ (env : LlmCallEnv) (title : String) (cond merch : Option String)
      (cands : List String) (r : LlmChooseSkuResult),
      (choose_sku_key_from_candidates env title cond merch cands).1 = some r →
      r.sku_key ∈ cands.map pyStrip ∧
      0 ≤ r.match_confidence ∧ r.match_confidence ≤ 1 := by
  intro env title cond merch cands r h
  unfold choose_sku_key_from_candidates at h
  split at h
  · simp at h
  · split at h
    · simp at h
    · split at h
      · simp at h
      · split at h
        · simp at h
        · rcases chooseCore_some h with ⟨hm, hb⟩
          exact ⟨List.mem_of_mem_filter (dedupFirstAux_mem _ _ _ hm), hb⟩

/-- Environment for the C2 counterexample: a cache hit whose payload picks
the stripped form of the only (whitespace-padded) candidate. -/
def c2Env : LlmCallEnv :=
  { llm_enabled := true, openai_api_key := "k",
    cache1 := some "cached-json", lockAcquired := false, cache2 := none,
    httpOutcome := Except.error 0,
    parseJson := fun _ =>
      some { matchObj := some { sku_key := "a", match_confidence := mkRat 1 2 } } }

/-- C2 counterexample.  With candidates `[" a "]` the function returns
`sku_key = "a"`, which is not an element of the provided candidate list:
candidates are stripped before validation. -/
theorem choose_result_stripped_counterexample :
    (choose_sku_key_from_candidates c2Env "some title" none none [" a "]).1 =
      some { sku_key := "a", match_confidence := mkRat 1 2,
             raw := { matchObj := some { sku_key := "a", match_confidence := mkRat 1 2 } } } ∧
    "a" ∉ [" a "] := by
  constructor
  · rfl
  · decide

/-- Witness for the amended C2 theorem at a concrete environment/input. -/
theorem choose_result_within_candidates_witness :
    (choose_sku_key_from_candidates c2Env "some title" none none [" a "]).1 =
      some { sku_key := "a", match_confidence := mkRat 1 2,
             raw := { matchObj := some { sku_key := "a", match_confidence := mkRat 1 2 } } } ∧
    "a" ∈ [" a "].map pyStrip ∧ 0 ≤ mkRat 1 2 ∧ mkRat 1 2 ≤ 1 :=
  ⟨rfl,
   choose_result_within_candidates c2Env "some title" none none [" a "] _ rfl⟩

/-- C8 (amended).  `choose_sku_key_from_candidates` never makes more than one
upstream HTTP attempt per invocation (there is no retry or backoff for any
status, 400 and 429/5xx alike), and whenever the attempt was made and the
upstream call failed (any `HTTPStatusError`, timeout or transport error) the
function returns `none` rather than raising. -/
theorem choose_single_attempt_no_retry :
    ∀ (env : LlmCallEnv) (title : String) (cond merch : Option String)
      (cands : List String),
      (choose_sku_key_from_candidates env title cond merch cands).2 ≤ 1 ∧
      (∀ st : Nat, env.httpOutcome = Except.error st →
        (choose_sku_key_from_candidates env title cond merch cands).2 = 1 →
        (choose_sku_key_from_candidates env title cond merch cands).1 = none) := by
  intro env title cond merch cands
  have hcore : (chooseCore env (dedupFirst
      ((cands.map pyStrip).filter (fun c => !(c = ""))))).2 ≤ 1 ∧
      (∀ st : Nat, env.httpOutcome = Except.error st →
        (chooseCore env (dedupFirst
          ((cands.map pyStrip).filter (fun c => !(c = ""))))).1 = none ∨
        (chooseCore env (dedupFirst
          ((cands.map pyStrip).filter (fun c => !(c = ""))))).2 = 0) := by
    unfold chooseCore
    constructor
    · split
      · simp
      · split
        · simp
        · split
          · simp
          · split <;> simp
    · intro st hst
      split
      · simp
      · split
        · simp
        · split
          · simp
          · split
            · simp
            · rename_i text heq
              rw [hst] at heq
              exact absurd heq (by simp)
  unfold choose_sku_key_from_candidates
  constructor
  · split
    · simp
    · split
      · simp
      · split
        · simp
        · split
          · simp
          · exact hcore.1
  · intro st hst hone
    revert hone
    split
    · simp
    · split
      · simp
      · split
        · simp
        · split
          · simp
          · intro hone
            rcases hcore.2 st hst with h | h
            · exact h
            · rw [hone] at h
              exact absurd h (by simp)

/-- Environment for the C8 counterexample: empty caches, lock acquired, and
the upstream call answering 429. -/
def c8Env : LlmCallEnv :=
  { llm_enabled := true, openai_api_key := "k",
    cache1 := none, lockAcquired := true, cache2 := none,
    httpOutcome := Except.error 429,
    parseJson := fun _ => none }

/-- C8 counterexample.  On an upstream 429 the function makes exactly one
HTTP attempt and returns `none`: there is no bounded-exponential-backoff
retry anywhere in `choose_sku_key_from_candidates` (the claimed behaviour
would require a second attempt while 429 persists). -/
theorem choose_429_no_retry_counterexample :
    choose_sku_key_from_candidates c8Env "some title" none none ["a"] =
      (none, 1) := rfl

/-- Witness for the amended C8 theorem at a concrete environment/input. -/
theorem choose_single_attempt_witness :
    (choose_sku_key_from_candidates c8Env "some title" none none ["a"]).2 ≤ 1 ∧
    (choose_sku_key_from_candidates c8Env "some title" none none ["a"]).1 = none :=
  ⟨(choose_single_attempt_no_retry c8Env "some title" none none ["a"]).1,
   (choose_single_attempt_no_retry c8Env "some title" none none ["a"]).2 429 rfl rfl⟩

/-! ## app/services/serpapi_client.py -/

/-- A JSON scalar as read from `item.get("price")` /
`item.get("extracted_price")`; `jmissing` covers an absent key and any
non-string non-number value. -/
inductive JVal
  | jstr (s : String)
  | jnum (q : Rat)
  | jmissing
deriving DecidableEq

structure AltPrice where
  currency : Option String := none
deriving DecidableEq

/-- One raw item of `shopping_results[]` / `inline_shopping_results[]`
(the fields the parser reads; `none` models an absent key; non-string
`currency` values, which the source coerces with `str(...)`, are modelled
as strings). -/
structure ShoppingItem where
  product_id : Option String := none
  title : Option String := none
  extracted_price : JVal := JVal.jmissing
  price : JVal := JVal.jmissing
  currency : Option String := none
  source : Option String := none
  product_link : Option String := none
  link : Option String := none
  serpapi_product_api : Option String := none
  serpapi_immersive_product_api : Option String := none
  alternative_price : Option AltPrice := none
  thumbnail : Option String := none
  second_hand_condition : Option String := none
deriving DecidableEq

structure ShoppingResult where
  product_id : String
  title : String
  price : Rat
  currency : String
  merchant : String
  product_link : String
  immersive_token : Option String := none
  thumbnail : Option String := none
  second_hand_condition : Option String := none
deriving DecidableEq

def isAsciiAlpha (c : Char) : Bool :=
  isLowerAlpha c || (decide ('A' ≤ c) && decide (c ≤ 'Z'))

/-- `pre` is a prefix of `s` (model of `str.startswith`). -/
def strStartsWith (s pre : String) : Bool := pre.data.isPrefixOf s.data

/-- First `n` characters (model of `s[:n]`). -/
def strTake (n : Nat) (s : String) : String := ⟨s.data.take n⟩

/-- The `symbol_to_code` table of `_normalize_currency_symbol`, in source
order. -/
def symbol_to_code : List (String × String) :=
  [("₪", "ILS"), ("US$", "USD"), ("$", "USD"), ("£", "GBP"), ("€", "EUR"),
   ("¥", "JPY"), ("₩", "KRW"), ("HK$", "HKD"), ("S$", "SGD"), ("A$", "AUD"),
   ("C$", "CAD"), ("NZ$", "NZD"), ("₹", "INR"), ("R$", "BRL"), ("₽", "RUB"),
   ("₨", "PKR"), ("₦", "NGN"), ("₫", "VND"), ("₱", "PHP")]

/-- `serpapi_client._normalize_currency_symbol` (`str.isalpha` modelled on
ASCII letters). -/
def normalize_currency_symbol (symbol : String) : Option String :=
  if symbol = "" then none
  else
    let s := pyStrip symbol
    match symbol_to_code.lookup s with
    | some code => some code
    | none =>
        if s.length = 3 ∧ s.data.all isAsciiAlpha then some (pyUpperStr s)
        else none

/-- The `symbol_map` table of `_currency_from_symbol`, in source
(= dict insertion) order. -/
def symbol_map : List (String × String) :=
  [("US$", "USD"), ("HK$", "HKD"), ("S$", "SGD"), ("A$", "AUD"),
   ("C$", "CAD"), ("NZ$", "NZD"), ("₪", "ILS"), ("¥", "JPY"), ("$", "USD"),
   ("€", "EUR"), ("£", "GBP"), ("₩", "KRW"), ("₹", "INR"), ("R$", "BRL"),
   ("₽", "RUB"), ("₨", "PKR"), ("₦", "NGN"), ("₫", "VND"), ("₱", "PHP"),
   ("AED", "AED"), ("SAR", "SAR"), ("QAR", "QAR"), ("KWD", "KWD"),
   ("BHD", "BHD"), ("OMR", "OMR"), ("JOD", "JOD")]

/-- `serpapi_client._currency_from_symbol`: multi-character symbols first
(in insertion order), then an exact single-character lookup. -/
def currency_from_symbol (price_str : String) : Option String :=
  if price_str = "" then none
  else
    match symbol_map.find?
        (fun kv => decide (1 < kv.1.length) && strStartsWith price_str kv.1) with
    | some kv => some kv.2
    | none =>
        match price_str.data with
        | [] => none
        | c :: _ => symbol_map.lookup (String.singleton c)

/-- The `gl_to_currency` table of `_currency_from_gl`. -/
def gl_to_currency : List (String × String) :=
  [("jp", "JPY"), ("us", "USD"), ("uk", "GBP"), ("gb", "GBP"), ("de", "EUR"),
   ("fr", "EUR"), ("it", "EUR"), ("es", "EUR"), ("nl", "EUR"), ("be", "EUR"),
   ("at", "EUR"), ("ie", "EUR"), ("pt", "EUR"), ("gr", "EUR"), ("fi", "EUR"),
   ("dk", "DKK"), ("se", "SEK"), ("no", "NOK"), ("pl", "PLN"), ("cz", "CZK"),
   ("hu", "HUF"), ("ro", "RON"), ("bg", "BGN"), ("hr", "HRK"), ("hk", "HKD"),
   ("ae", "AED"), ("sg", "SGD"), ("kr", "KRW"), ("au", "AUD"), ("ca", "CAD"),
   ("nz", "NZD"), ("mx", "MXN"), ("br", "BRL"), ("in", "INR"), ("cn", "CNY"),
   ("il", "ILS"), ("sa", "SAR"), ("qa", "QAR"), ("kw", "KWD"), ("bh", "BHD"),
   ("om", "OMR"), ("jo", "JOD"), ("tr", "TRY"), ("ru", "RUB"), ("za", "ZAR"),
   ("eg", "EGP"), ("th", "THB"), ("my", "MYR"), ("id", "IDR"), ("ph", "PHP"),
   ("vn", "VND"), ("pk", "PKR"), ("bd", "BDT"), ("ng", "NGN")]

/-- `serpapi_client._currency_from_gl`. -/
def currency_from_gl (gl : String) : Option String :=
  gl_to_currency.lookup (pyLowerStr gl)

/-- Step (1) of `_extract_currency`: the direct `item.currency` field when
truthy — normalized symbol, else upper-cased when at least 3 characters;
shorter unrecognized values fall through to the next step. -/
def extractCurrencyStep1 (item : ShoppingItem) : Option String :=
  match item.currency with
  | none => none
  | some c0 =>
      if c0 = "" then none
      else
        let cs := pyStrip c0
        match normalize_currency_symbol cs with
        | some code => some code
        | none => if 3 ≤ cs.length then some (pyUpperStr cs) else none

/-- Step (4) of `_extract_currency`: `alternative_price.currency`, last
resort only. -/
def extractCurrencyStep4 (item : ShoppingItem) : Option String :=
  match item.alternative_price with
  | none => none
  | some alt =>
      match alt.currency with
      | none => none
      | some a0 =>
          if a0 = "" then none
          else
            let astr := pyStrip a0
            match normalize_currency_symbol astr with
            | some code => some code
            | none => if 3 ≤ astr.length then some (pyUpperStr astr) else none

/-- `serpapi_client._extract_currency`: ordered sources, first non-empty
wins, with `"USD"` as the final fallback. -/
def extract_currency (item : ShoppingItem) (gl : String) : String :=
  match extractCurrencyStep1 item with
  | some c => c
  | none =>
      match (match item.price with
             | JVal.jstr s => currency_from_symbol s
             | _ => none) with
      | some c => c
      | none =>
          match currency_from_gl gl with
          | some c => c
          | none =>
              match extractCurrencyStep4 item with
              | some c => c
              | none => "USD"

def digitsVal : List Char → Option Nat
  | [] => some 0
  | c :: rest =>
      if isAsciiDigit c then
        match digitsVal rest with
        | some n => some n
        | none => none
      else none

def digitsToNat (l : List Char) : Nat :=
  l.foldl (fun acc c => acc * 10 + (c.toNat - 48)) 0

/-- Model of `float(s)` on a string of digits and dots: at most one dot and
at least one digit, else a parse failure (`ValueError`). -/
def parseDecimal (s : String) : Option Rat :=
  let l := s.data
  let intPart := l.takeWhile (fun c => !(c == '.'))
  let rest := l.dropWhile (fun c => !(c == '.'))
  let fracPart := rest.drop 1
  if l = [] then none
  else if fracPart.any (fun c => c == '.') then none
  else if intPart = [] ∧ fracPart = [] then none
  else
    match digitsVal intPart, digitsVal fracPart with
    | some _, some _ =>
        some (mkRat (digitsToNat intPart * 10 ^ fracPart.length +
          digitsToNat fracPart) (10 ^ fracPart.length))
    | _, _ => none

/-- `serpapi_client._parse_price`: numbers pass through; strings are
stripped to digits and dots and parsed, `0.0` on failure; anything else is
`0.0`.  (Unicode digits accepted by `str.isdigit` are modelled as ASCII.) -/
def parse_price : JVal → Rat
  | JVal.jnum q => q
  | JVal.jstr s =>
      let cleaned : String := ⟨s.data.filter (fun c => isAsciiDigit c || c == '.')⟩
      match parseDecimal cleaned with
      | some v => v
      | none => 0
  | JVal.jmissing => 0

/-- `serpapi_client._parse_shopping_item`.  (The source `is_inline`
parameter is unused by the body and omitted; the per-item `try` cannot fire
in this typed model.) -/
def parse_shopping_item (item : ShoppingItem) (gl : String) : ShoppingResult :=
  let currency := extract_currency item gl
  let product_link :=
    match item.product_link with
    | some p => if p = "" then item.link.getD "" else p
    | none => item.link.getD ""
  let token0 :=
    match item.serpapi_product_api with
    | some t => if t = "" then item.serpapi_immersive_product_api.getD "" else t
    | none => item.serpapi_immersive_product_api.getD ""
  { product_id := item.product_id.getD "",
    title := item.title.getD "",
    price := parse_price item.extracted_price,
    currency := currency,
    merchant := item.source.getD "",
    product_link := product_link,
    immersive_token := if token0 = "" then none else some token0,
    thumbnail := item.thumbnail,
    second_hand_condition := item.second_hand_condition }

/-- Organic-row filter of `_parse_shopping_results`: keep the parsed row
when `product_id` is truthy and the price is positive. -/
def parseOrganicItem (gl : String) (item : ShoppingItem) :
    Option ShoppingResult :=
  if !((parse_shopping_item item gl).product_id = "") &&
      decide (0 < (parse_shopping_item item gl).price) then
    some (parse_shopping_item item gl)
  else none

/-- Inline-(ads-)row filter of `_parse_shopping_results`: positive price
required; a missing `product_id` is synthesized as
`first-16(hex(sha256(link)))`, and the row is dropped when the link is also
missing. -/
def parseInlineItem (sha256hex : String → String) (gl : String)
    (item : ShoppingItem) : Option ShoppingResult :=
  if decide (0 < (parse_shopping_item item gl).price) then
    if (parse_shopping_item item gl).product_id = "" then
      if (parse_shopping_item item gl).product_link = "" then none
      else
        some { parse_shopping_item item gl with
                 product_id := strTake 16
                   (sha256hex (parse_shopping_item item gl).product_link) }
    else some (parse_shopping_item item gl)
  else none

/-- `serpapi_client._parse_shopping_results`: both result arrays are parsed
and filtered; organic rows first, then inline rows.  `sha256hex` abstracts
the digest. -/
def parse_shopping_results (sha256hex : String → String)
    (shopping_results inline_shopping_results : List ShoppingItem)
    (gl : String) : List ShoppingResult :=
  shopping_results.filterMap (parseOrganicItem gl) ++
    inline_shopping_results.filterMap (parseInlineItem sha256hex gl)

theorem strTake_ne_empty {n : Nat} (hn : 0 < n) {s : String} (hs : s ≠ "") :
    strTake n s ≠ "" := by
  cases s with
  | mk l =>
      cases l with
      | nil => exact absurd rfl hs
      | cons c t =>
          cases n with
          | zero => exact absurd hn (by simp)
          | succ m =>
              intro h
              have hdata : (c :: t).take (m + 1) = [] := congrArg String.data h
              simp [List.take] at hdata

/-- C7 (code bug).  With `gl = "cn"` a yen sign in `item.currency` or in the
`item.price` string resolves to `"JPY"`: steps (1)–(2) return before the
`gl` map — which does carry `cn → CNY` — is ever consulted, so the
"¥ → JPY overridable by gl" behaviour asserted by the source comments and
by the spec never happens. -/
theorem extract_currency_yen_not_overridden_by_gl :
    extract_currency { currency := some "¥" } "cn" = "JPY" ∧
    extract_currency { price := JVal.jstr "¥159,800" } "cn" = "JPY" ∧
    currency_from_gl "cn" = some "CNY" := ⟨rfl, rfl, rfl⟩

/-- C10.  Every `ShoppingResult` produced by `_parse_shopping_results` (for
any digest function with non-empty output) has a non-empty `product_id` and
a price strictly greater than zero: organic rows without a truthy id or a
positive price are dropped, inline rows get a synthesized link-hash id or
are dropped when the link is missing. -/
theorem parse_shopping_results_invariant :
    ∀ sha256hex : String → String, (∀ u, sha256hex u ≠ "") →
      ∀ (org inl : List ShoppingItem) (gl : String),
        ∀ r ∈ parse_shopping_results sha256hex org inl gl,
          r.product_id ≠ "" ∧ 0 < r.price := by
  intro sha hsha org inl gl r hr
  unfold parse_shopping_results at hr
  rcases List.mem_append.mp hr with hr | hr
  · obtain ⟨item, _, hf⟩ := List.mem_filterMap.mp hr
    unfold parseOrganicItem at hf
    split at hf
    · rename_i hcond
      simp only [Option.some_inj] at hf
      subst hf
      rw [Bool.and_eq_true] at hcond
      refine ⟨?_, by simpa using hcond.2⟩
      intro h
      rw [h] at hcond
      simpa using hcond.1
    · exact absurd hf (by simp)
  · obtain ⟨item, _, hf⟩ := List.mem_filterMap.mp hr
    unfold parseInlineItem at hf
    split at hf
    · rename_i hpos
      split at hf
      · rename_i hid
        split at hf
        · exact absurd hf (by simp)
        · rename_i hlink
          simp only [Option.some_inj] at hf
          subst hf
          exact ⟨strTake_ne_empty (by simp) (hsha _), by simpa using hpos⟩
      · rename_i hid
        simp only [Option.some_inj] at hf
        subst hf
        exact ⟨hid, by simpa using hpos⟩
    · exact absurd hf (by simp)

/-- Witness for C10 at a concrete digest and response. -/
theorem parse_shopping_results_invariant_witness :
    (∀ u : String, (fun _ : String => "0123456789abcdef0123") u ≠ "") ∧
    ∀ r ∈ parse_shopping_results (fun _ => "0123456789abcdef0123")
        [{ product_id := some "p1", title := some "iPhone",
           extracted_price := JVal.jnum (mkRat 999 1), price := JVal.jstr "$999",
           source := some "Apple", product_link := some "https://x/1" },
         { product_id := some "p2", extracted_price := JVal.jnum 0 }]
        [{ extracted_price := JVal.jnum (mkRat 500 1), link := some "https://x/2" }]
        "us",
      r.product_id ≠ "" ∧ 0 < r.price :=
  ⟨fun _ => show ("0123456789abcdef0123" : String) ≠ "" from by decide,
   parse_shopping_results_invariant (fun _ => "0123456789abcdef0123")
     (fun _ => show ("0123456789abcdef0123" : String) ≠ "" from by decide)
     _ _ "us"⟩

/-! ## app/services/reconciliation.py

The DB tables live in a `DbState`; SQLAlchemy queries become list
operations over it (the raw table is given in `ingested_at` ascending
order, so the `ORDER BY` is the list order).  The JSON side-cars
(`parsed_attrs_json`, `flags_json`, `match_reason_codes_json`) are typed
records; the raw LLM payload stored under the `llm` key and the debug
sample lists (`created_offer_ids`, `matched_raw_offer_ids`,
`sample_reason_codes`) are write-only in the source and omitted.  Display
and trust fields of `Offer` (formatted price, trust score and reason
codes, availability, city, tax/shipping zeros) are constants or outputs of
the trust scorer that no claim mentions and are omitted from the record. -/

structure ReconcileStats where
  scanned : Nat := 0
  skipped_multi_variant : Nat := 0
  skipped_contract : Nat := 0
  skipped_missing_attrs : Nat := 0
  skipped_no_sku : Nat := 0
  skipped_fx : Nat := 0
  dedup_conflict : Nat := 0
  matched_existing_offer : Nat := 0
  created_offers : Nat := 0
  updated_raw_matches : Nat := 0
  llm_budget : Nat := 0
  llm_external_calls : Nat := 0
  llm_reused : Nat := 0
  llm_skipped_budget : Nat := 0
deriving DecidableEq

/-- Output of `attribute_extractor.extract_attributes` (consumed, not
re-implemented: the reconciliation theorems hold for every extractor). -/
structure Extraction where
  model : Option String := none
  storage : Option String := none
  color : Option String := none
  confidence : String := "low"
deriving DecidableEq

/-- Typed model of the `parsed_attrs_json` side-car. -/
structure ParsedAttrs where
  extraction : Option Extraction := none
  second_hand_condition : Option String := none
  normalized_condition : Option String := none
  llm_attempted : Bool := false
  llm_candidates_count : Option Nat := none
  llm_candidates_fingerprint : Option String := none
  llm_chosen_sku_key : Option String := none
  llm_match_confidence : Option Rat := none
deriving DecidableEq

/-- Typed model of the `flags_json` side-car. -/
structure Flags where
  is_multi_variant : Bool
  is_contract : Bool
deriving DecidableEq

structure RawOffer where
  raw_offer_id : String
  title_raw : Option String := none
  second_hand_condition : Option String := none
  merchant_name : String
  price_local : Rat
  currency : String
  product_link : Option String := none
  country_code : String
  immersive_token : Option String := none
  source_product_id : Option String := none
  parsed_attrs : ParsedAttrs := {}
  flags : Option Flags := none
  matched_sku_id : Option Nat := none
  match_confidence : Option Rat := none
  match_reason_codes : Option (List String) := none
deriving DecidableEq

structure GoldenSku where
  id : Nat
  sku_key : String
  model : String
  condition : String
  storage : String
deriving DecidableEq

structure Merchant where
  id : Nat
  name : String
  normalized_name : String
deriving DecidableEq

structure Offer where
  offer_id : String
  sku_id : Nat
  merchant_id : Nat
  dedup_key : String
  country_code : String
  price : Rat
  currency : String
  price_usd : Rat
  final_effective_price : Rat
  condition : String
  product_link : Option String := none
  immersive_token : Option String := none
  source : String
  source_product_id : Option String := none
  match_confidence : Rat
  match_reason_codes : List String
deriving DecidableEq

structure DbState where
  catalog : List GoldenSku
  offers : List Offer
  merchants : List Merchant
deriving DecidableEq

/-- Result of one `choose_sku_key_from_candidates` call as the reconciler
consumes it (the raw payload is only copied into the omitted `llm` key). -/
structure LlmOutcome where
  sku_key : String
  match_confidence : Rat
deriving DecidableEq

inductive RowErr
  | dbError
deriving DecidableEq

/-- External behaviour observed by one `reconcile_raw_offers` invocation:
the attribute extractor, the LLM matcher oracle, the FX fetches, the uuid
source, the candidate fingerprint digest, and injection points for DB
exceptions (merchant lookup/creation and offer flush). -/
structure ReconEnv where
  extract : String → Extraction
  llm : String → Option String → String → List String → Option LlmOutcome
  fx : FxEnv
  fxInitial : Except FxErr FxRates
  merchantFails : String → Bool
  flushFails : Bool
  offerId : Nat → String
  fingerprint : List String → String

/-- The settings fields `reconcile_raw_offers` reads (pydantic validates
`llm_max_calls_per_reconcile ≥ 0` and the fraction into `[0, 1]`). -/
structure ReconSettings where
  llm_enabled : Bool
  openai_api_key : String
  llm_max_calls_per_reconcile : Int
  llm_max_fraction_per_reconcile : Rat

/-- Mutable state threaded through the row loop: the DB, the stats, the
local `llm_external_calls` counter and the uuid sequence. -/
structure RunState where
  db : DbState
  stats : ReconcileStats
  calls : Nat
  offerSeq : Nat

/-- `reconciliation._normalize_condition`. -/
def normalize_condition : Option String → String
  | none => "new"
  | some s =>
      if s = "" then "new"
      else
        let v := pyStrip (pyLowerStr s)
        if v ∈ ["refurbished", "refurb", "renewed", "certified pre-owned", "cpo"]
          then "refurbished"
        else if v ∈ ["used", "pre-owned", "second hand", "secondhand", "pre owned"]
          then "used"
        else "new"

def containsAux (needle : List Char) : List Char → Bool
  | [] => needle.isEmpty
  | c :: rest => needle.isPrefixOf (c :: rest) || containsAux needle rest

/-- `needle in hay` on Python strings. -/
def strContains (hay needle : String) : Bool := containsAux needle.data hay.data

/-- Storage-token scanner behind `_detect_is_multi_variant`: the matches of
`(\d+)\s*(gb|tb)` over a lowercased title.  `seen` is the reversed prefix
before the cursor; a unit letter looks back across spaces for the adjacent
maximal digit run, which reproduces the left-to-right non-overlapping regex
matches. -/
def storageScanAux : List Char → List Char → List String
  | _, [] => []
  | seen, 'g' :: 'b' :: rest2 =>
      (match (seen.dropWhile pyIsSpace).takeWhile isAsciiDigit with
       | [] => []
       | digitsRev => [(⟨digitsRev.reverse ++ ['g', 'b']⟩ : String)]) ++
        storageScanAux ('b' :: 'g' :: seen) rest2
  | seen, 't' :: 'b' :: rest2 =>
      (match (seen.dropWhile pyIsSpace).takeWhile isAsciiDigit with
       | [] => []
       | digitsRev => [(⟨digitsRev.reverse ++ ['t', 'b']⟩ : String)]) ++
        storageScanAux ('b' :: 't' :: seen) rest2
  | seen, c :: rest => storageScanAux (c :: seen) rest

/-- `reconciliation._detect_is_multi_variant`. -/
def detect_is_multi_variant (title : String) : Bool :=
  let t := pyLowerStr title
  let storages := dedupFirst ((storageScanAux [] t.data).filter
    (fun tok => tok ∈ ["64gb", "128gb", "256gb", "512gb", "1tb", "2tb"]))
  if 2 ≤ storages.length then true
  else if ["256gb/512gb", "512gb/1tb", "all colors", "all colour", "all color"].any
      (fun p => strContains t p) then true
  else false

/-- `reconciliation._detect_is_contract`: literal substring match over the
lowercased title. -/
def detect_is_contract (title : String) : Bool :=
  let t := pyLowerStr title
  ["with data plan", "with contract", "monthly payments",
   "installment payments", "mobile phone plan",
   "vertrag", "ratenzahlung", "monatlich",
   "forfait", "abonnement", "mensualit",
   "契約", "分割", "月額", "プラン",
   "약정", "할부", "월", "요금제", "플랜",
   "合約", "合约", "月費", "月费", "分期", "套餐",
   "عقد", "خطة", "أقساط", "اقساط", "دفعات شهرية"].any
    (fun p => strContains t p)

/-- `reconciliation._candidates_fingerprint` (`fpHash` abstracts the
sha256-based digest). -/
def candidates_fingerprint (fpHash : List String → String)
    (candidates : List String) : Option String :=
  if candidates = [] then none else some (fpHash candidates)

/-- `reconciliation._get_llm_state`. -/
def get_llm_state (pa : ParsedAttrs) : Bool × Option String × Option Rat :=
  (pa.llm_attempted,
   (match pa.llm_chosen_sku_key with
    | some s => if pyStrip s = "" then none else some s
    | none => none),
   pa.llm_match_confidence)

/-- `reconciliation._mark_llm_attempt` (the raw payload key is omitted). -/
def mark_llm_attempt (pa : ParsedAttrs) (candidates_count : Nat)
    (candidates_fingerprint : Option String)
    (chosen_sku_key : Option String) (match_confidence : Option Rat) :
    ParsedAttrs :=
  { pa with
    llm_attempted := true,
    llm_candidates_count := some candidates_count,
    llm_candidates_fingerprint :=
      if optTruthy candidates_fingerprint then candidates_fingerprint
      else pa.llm_candidates_fingerprint,
    llm_chosen_sku_key := chosen_sku_key,
    llm_match_confidence := match_confidence }

/-- `reconciliation._snapshot_parsed_attrs`: merge the deterministic
snapshot without losing LLM fields. -/
def snapshot_parsed_attrs (pa : ParsedAttrs) (extraction : Extraction)
    (shc : Option String) (normalized : String) : ParsedAttrs :=
  { pa with
    extraction := some extraction,
    second_hand_condition := shc,
    normalized_condition := some normalized }

/-- `reconciliation._find_or_create_merchant`; `env.merchantFails` injects a
DB exception (the source has no handler around it). -/
def find_or_create_merchant (env : ReconEnv) (db : DbState)
    (merchant_name : String) : Except RowErr (Merchant × DbState) :=
  if env.merchantFails merchant_name then .error .dbError
  else
    match db.merchants.find?
        (fun m => m.normalized_name = pyStrip (pyLowerStr merchant_name)) with
    | some m => .ok (m, db)
    | none =>
        .ok ({ id := db.merchants.length + 1,
               name := merchant_name,
               normalized_name := pyStrip (pyLowerStr merchant_name) },
             { db with merchants := db.merchants ++
               [{ id := db.merchants.length + 1,
                  name := merchant_name,
                  normalized_name := pyStrip (pyLowerStr merchant_name) }] })

/-- The dedup key the reconciler computes for a raw row. -/
def dedupKeyOfRaw (sha256hex : String → String) (raw : RawOffer) : String :=
  compute_offer_dedup_key sha256hex raw.merchant_name raw.price_local
    raw.currency raw.product_link

/-- Shared tail of both promotion paths: merchant lookup/creation, dedup-key
lookup, then link-existing / conflict / create-offer.  `matchedReason`,
`createdReason`, `source` and `conf` are the constants that differ between
the deterministic and the LLM path.  `env.flushFails` injects a DB
exception at the `session.flush()` of a new offer. -/
def finishRow (env : ReconEnv) (sha256hex : String → String)
    (matchedReason createdReason source : String) (conf : Rat)
    (sku : GoldenSku) (condition : String) (price_usd : Rat)
    (st : RunState) (raw : RawOffer) : Except RowErr (RawOffer × RunState) :=
  match find_or_create_merchant env st.db raw.merchant_name with
  | .error e => .error e
  | .ok (merchant, db1) =>
      match db1.offers.find?
          (fun o => o.dedup_key = dedupKeyOfRaw sha256hex raw) with
      | some existing =>
          if existing.sku_id = sku.id then
            .ok ({ raw with
                     matched_sku_id := some sku.id,
                     match_confidence := some conf,
                     match_reason_codes := some [matchedReason] },
                 { st with
                     db := db1,
                     stats := { st.stats with
                       matched_existing_offer :=
                         st.stats.matched_existing_offer + 1,
                       updated_raw_matches :=
                         st.stats.updated_raw_matches + 1 } })
          else
            .ok ({ raw with
                     match_reason_codes := some ["DEDUP_KEY_CONFLICT"] },
                 { st with
                     db := db1,
                     stats := { st.stats with
                       dedup_conflict := st.stats.dedup_conflict + 1 } })
      | none =>
          if env.flushFails then .error .dbError
          else
            .ok ({ raw with
                     matched_sku_id := some sku.id,
                     match_confidence := some conf,
                     match_reason_codes := some [createdReason] },
                 { st with
                     db := { db1 with offers := db1.offers ++
                       [{ offer_id := env.offerId st.offerSeq,
                          sku_id := sku.id,
                          merchant_id := merchant.id,
                          dedup_key := dedupKeyOfRaw sha256hex raw,
                          country_code := pyUpperStr raw.country_code,
                          price := raw.price_local,
                          currency := pyUpperStr raw.currency,
                          price_usd := price_usd,
                          final_effective_price := price_usd,
                          condition := condition,
                          product_link := raw.product_link,
                          immersive_token := raw.immersive_token,
                          source := source,
                          source_product_id := raw.source_product_id,
                          match_confidence := conf,
                          match_reason_codes := [createdReason] }] },
                     stats := { st.stats with
                       created_offers := st.stats.created_offers + 1,
                       updated_raw_matches :=
                         st.stats.updated_raw_matches + 1 },
                     offerSeq := st.offerSeq + 1 })

/-- FX conversion followed by `finishRow`: a `none` price is the
`FX_UNAVAILABLE` skip. -/
def priceTail (env : ReconEnv) (sha256hex : String → String)
    (fxRates : Option FxRates)
    (matchedReason createdReason source : String) (conf : Rat)
    (sku : GoldenSku) (condition : String)
    (st : RunState) (raw : RawOffer) : Except RowErr (RawOffer × RunState) :=
  match convert_price_usd env.fx raw.price_local raw.currency fxRates with
  | none =>
      .ok ({ raw with match_reason_codes := some ["FX_UNAVAILABLE"] },
           { st with stats := { st.stats with
               skipped_fx := st.stats.skipped_fx + 1 } })
  | some price_usd =>
      finishRow env sha256hex matchedReason createdReason source conf sku
        condition price_usd st raw

/-- The stored choice reused when a row already carries an LLM attempt. -/
def chosenStored (pa : ParsedAttrs) : Option String :=
  if pa.llm_attempted then (get_llm_state pa).2.1 else none

/-- The stored confidence reused alongside `chosenStored`. -/
def confStored (pa : ParsedAttrs) : Option Rat :=
  if pa.llm_attempted then (get_llm_state pa).2.2 else none

/-- `stats.llm_reused += 1`. -/
def bumpReused (st : RunState) : RunState :=
  { st with stats := { st.stats with llm_reused := st.stats.llm_reused + 1 } }

/-- `stats.llm_skipped_budget += 1`. -/
def bumpSkippedBudget (st : RunState) : RunState :=
  { st with stats := { st.stats with
      llm_skipped_budget := st.stats.llm_skipped_budget + 1 } }

/-- The reuse bookkeeping both LLM blocks run when the row already carries
an attempt with a truthy stored choice. -/
def stAfterReuse (st : RunState) (pa : ParsedAttrs) : RunState :=
  if pa.llm_attempted && ((get_llm_state pa).2.1).isSome then bumpReused st
  else st

/-- The guard of an external LLM call (`attempted` is checked only on the
missing-attributes path; the deterministic fallback passes `false`). -/
def callGuard (settings : ReconSettings) (budget : Int) (model : Option String)
    (calls : Nat) (attempted : Bool) : Bool :=
  settings.llm_enabled && !(settings.openai_api_key == "") && optTruthy model &&
    decide (0 < budget) && decide ((calls : Int) < budget) && !attempted

/-- The `llm_skipped_budget` guard of the missing-attributes path. -/
def skipGuardA (settings : ReconSettings) (budget : Int) (model : Option String)
    (calls : Nat) (attempted : Bool) : Bool :=
  settings.llm_enabled && !(settings.openai_api_key == "") && optTruthy model &&
    !attempted && decide (0 < budget) && decide (budget ≤ (calls : Int))

/-- The `llm_skipped_budget` guard of the deterministic fallback (no
`attempted` check). -/
def skipGuardD (settings : ReconSettings) (budget : Int) (model : Option String)
    (calls : Nat) : Bool :=
  settings.llm_enabled && !(settings.openai_api_key == "") && optTruthy model &&
    decide (0 < budget) && decide (budget ≤ (calls : Int))

/-- Candidate keys of the missing-attributes path: catalog rows with the
extracted model and normalized condition, first 50, projected to sku_key. -/
def candidatesA (db : DbState) (model : Option String) (condition : String) :
    List String :=
  ((db.catalog.filter (fun g => decide (g.model = model.getD "") &&
      decide (g.condition = condition))).take 50).map (fun g => g.sku_key)

/-- Candidate keys of the deterministic fallback: additionally narrowed by
storage when the extracted storage is truthy. -/
def candidatesD (db : DbState) (model storage : Option String)
    (condition : String) : List String :=
  ((db.catalog.filter (fun g => decide (g.model = model.getD "") &&
      decide (g.condition = condition) &&
      (!optTruthy storage || decide (g.storage = storage.getD "")))).take
      50).map (fun g => g.sku_key)

/-- The LLM block of the missing-attributes path (storage or color absent):
stored-attempt reuse, then at most one budgeted external call, marking the
attempt on the row; returns the updated row and state plus the chosen key
and confidence. -/
def llmBlockA (env : ReconEnv) (settings : ReconSettings) (budget : Int)
    (title : String) (model : Option String) (condition : String)
    (st : RunState) (raw : RawOffer) :
    RawOffer × RunState × Option String × Option Rat :=
  if callGuard settings budget model st.calls raw.parsed_attrs.llm_attempted then
    match env.llm title raw.second_hand_condition raw.merchant_name
        (candidatesA st.db model condition) with
    | some res =>
        ({ raw with
             parsed_attrs := mark_llm_attempt raw.parsed_attrs
               (candidatesA st.db model condition).length
               (candidates_fingerprint env.fingerprint
                 (candidatesA st.db model condition))
               (some res.sku_key) (some res.match_confidence) },
         { stAfterReuse st raw.parsed_attrs with calls := st.calls + 1 },
         some res.sku_key, some res.match_confidence)
    | none =>
        ({ raw with
             parsed_attrs := mark_llm_attempt raw.parsed_attrs
               (candidatesA st.db model condition).length
               (candidates_fingerprint env.fingerprint
                 (candidatesA st.db model condition))
               (chosenStored raw.parsed_attrs) (confStored raw.parsed_attrs) },
         { stAfterReuse st raw.parsed_attrs with calls := st.calls + 1 },
         chosenStored raw.parsed_attrs, confStored raw.parsed_attrs)
  else if skipGuardA settings budget model st.calls
      raw.parsed_attrs.llm_attempted then
    (raw, bumpSkippedBudget (stAfterReuse st raw.parsed_attrs),
     chosenStored raw.parsed_attrs, confStored raw.parsed_attrs)
  else
    (raw, stAfterReuse st raw.parsed_attrs,
     chosenStored raw.parsed_attrs, confStored raw.parsed_attrs)

/-- The LLM fallback block of the deterministic path (`sku_key` not in the
catalog): the stored-attempt reuse sits inside the budget guard, and the
candidate query is additionally narrowed by storage when known. -/
def llmBlockD (env : ReconEnv) (settings : ReconSettings) (budget : Int)
    (title : String) (model storage : Option String) (condition : String)
    (st : RunState) (raw : RawOffer) :
    RawOffer × RunState × Option String × Option Rat :=
  if callGuard settings budget model st.calls false then
    if raw.parsed_attrs.llm_attempted then
      (raw, stAfterReuse st raw.parsed_attrs,
       (get_llm_state raw.parsed_attrs).2.1, (get_llm_state raw.parsed_attrs).2.2)
    else
      match env.llm title raw.second_hand_condition raw.merchant_name
          (candidatesD st.db model storage condition) with
      | some res =>
          ({ raw with
               parsed_attrs := mark_llm_attempt raw.parsed_attrs
                 (candidatesD st.db model storage condition).length
                 (candidates_fingerprint env.fingerprint
                   (candidatesD st.db model storage condition))
                 (some res.sku_key) (some res.match_confidence) },
           { st with calls := st.calls + 1 },
           some res.sku_key, some res.match_confidence)
      | none =>
          ({ raw with
               parsed_attrs := mark_llm_attempt raw.parsed_attrs
                 (candidatesD st.db model storage condition).length
                 (candidates_fingerprint env.fingerprint
                   (candidatesD st.db model storage condition))
                 none none },
           { st with calls := st.calls + 1 }, none, none)
  else if skipGuardD settings budget model st.calls then
    (raw, bumpSkippedBudget st, none, none)
  else (raw, st, none, none)

/-- The tail of the missing-attributes path after `llmBlockA`: truthiness
check of the chosen key, catalog lookup, then the promotion tail with the
LLM reason codes and confidence. -/
def llmPath (env : ReconEnv) (settings : ReconSettings)
    (sha256hex : String → String) (budget : Int) (fxRates : Option FxRates)
    (title : String) (model : Option String) (condition : String)
    (st : RunState) (raw1 : RawOffer) : Except RowErr (RawOffer × RunState) :=
  if ¬optTruthy (llmBlockA env settings budget title model condition st raw1).2.2.1 then
    .ok ({ (llmBlockA env settings budget title model condition st raw1).1 with
             match_reason_codes := some ["MISSING_REQUIRED_ATTRS"] },
         { (llmBlockA env settings budget title model condition st raw1).2.1 with
             stats := { (llmBlockA env settings budget title model condition st raw1).2.1.stats with
               skipped_missing_attrs :=
                 (llmBlockA env settings budget title model condition st raw1).2.1.stats.skipped_missing_attrs + 1 } })
  else
    match (llmBlockA env settings budget title model condition st raw1).2.1.db.catalog.find?
        (fun g => g.sku_key =
          ((llmBlockA env settings budget title model condition st raw1).2.2.1).getD "") with
    | none =>
        .ok ({ (llmBlockA env settings budget title model condition st raw1).1 with
                 match_reason_codes := some ["SKU_NOT_IN_CATALOG"] },
             { (llmBlockA env settings budget title model condition st raw1).2.1 with
                 stats := { (llmBlockA env settings budget title model condition st raw1).2.1.stats with
                   skipped_no_sku :=
                     (llmBlockA env settings budget title model condition st raw1).2.1.stats.skipped_no_sku + 1 } })
    | some sku =>
        priceTail env sha256hex fxRates "LLM_MATCH_EXISTING_OFFER" "LLM_MATCH"
          "serpapi_reconcile_llm"
          (((llmBlockA env settings budget title model condition st raw1).2.2.2).getD 0) sku
          condition (llmBlockA env settings budget title model condition st raw1).2.1
          (llmBlockA env settings budget title model condition st raw1).1

/-- The tail of the deterministic path when the computed `sku_key` is not in
the catalog: `llmBlockD` fallback, catalog lookup of the chosen key, then
the promotion tail with the deterministic reason codes and confidence 1. -/
def detFallback (env : ReconEnv) (settings : ReconSettings)
    (sha256hex : String → String) (budget : Int) (fxRates : Option FxRates)
    (title : String) (model storage : Option String) (condition : String)
    (st : RunState) (raw1 : RawOffer) : Except RowErr (RawOffer × RunState) :=
  match (if optTruthy (llmBlockD env settings budget title model storage condition st raw1).2.2.1 then
      (llmBlockD env settings budget title model storage condition st raw1).2.1.db.catalog.find?
        (fun g => g.sku_key =
          ((llmBlockD env settings budget title model storage condition st raw1).2.2.1).getD "")
    else none) with
  | some sku =>
      priceTail env sha256hex fxRates "DEDUP_MATCH_EXISTING_OFFER"
        "DETERMINISTIC_SKU_MATCH" "serpapi_reconcile" 1 sku condition
        (llmBlockD env settings budget title model storage condition st raw1).2.1
        (llmBlockD env settings budget title model storage condition st raw1).1
  | none =>
      .ok ({ (llmBlockD env settings budget title model storage condition st raw1).1 with
               match_reason_codes := some ["SKU_NOT_IN_CATALOG"] },
           { (llmBlockD env settings budget title model storage condition st raw1).2.1 with
               stats := { (llmBlockD env settings budget title model storage condition st raw1).2.1.stats with
                 skipped_no_sku :=
                   (llmBlockD env settings budget title model storage condition st raw1).2.1.stats.skipped_no_sku + 1 } })

/-- One iteration of the row loop of `reconcile_raw_offers` after the
`scanned` bump. -/
def rowBody (env : ReconEnv) (settings : ReconSettings)
    (sha256hex : String → String) (budget : Int) (fxRates : Option FxRates)
    (st : RunState) (raw : RawOffer) : Except RowErr (RawOffer × RunState) :=
  if raw.title_raw.getD "" = "" then
    .ok ({ raw with match_reason_codes := some ["MISSING_TITLE"] },
         { st with stats := { st.stats with
             skipped_missing_attrs := st.stats.skipped_missing_attrs + 1 } })
  else if detect_is_multi_variant (raw.title_raw.getD "") then
    .ok ({ raw with
             flags := some { is_multi_variant := true,
                             is_contract := detect_is_contract (raw.title_raw.getD "") },
             match_reason_codes := some ["SKIP_MULTI_VARIANT"] },
         { st with stats := { st.stats with
             skipped_multi_variant := st.stats.skipped_multi_variant + 1 } })
  else if detect_is_contract (raw.title_raw.getD "") then
    .ok ({ raw with
             flags := some { is_multi_variant := false, is_contract := true },
             match_reason_codes := some ["SKIP_CONTRACT"] },
         { st with stats := { st.stats with
             skipped_contract := st.stats.skipped_contract + 1 } })
  else
    if ¬(optTruthy (env.extract (raw.title_raw.getD "")).model ∧
        optTruthy (env.extract (raw.title_raw.getD "")).storage ∧
        optTruthy (env.extract (raw.title_raw.getD "")).color) then
      llmPath env settings sha256hex budget fxRates (raw.title_raw.getD "")
        (env.extract (raw.title_raw.getD "")).model
        (normalize_condition raw.second_hand_condition) st
        { raw with
          parsed_attrs := snapshot_parsed_attrs raw.parsed_attrs
            (env.extract (raw.title_raw.getD "")) raw.second_hand_condition
            (normalize_condition raw.second_hand_condition),
          flags := some { is_multi_variant := false, is_contract := false } }
    else
      match st.db.catalog.find? (fun g => g.sku_key =
          compute_sku_key { model := (env.extract (raw.title_raw.getD "")).model,
                            storage := (env.extract (raw.title_raw.getD "")).storage,
                            color := (env.extract (raw.title_raw.getD "")).color,
                            condition := some (normalize_condition raw.second_hand_condition) }) with
      | some sku =>
          priceTail env sha256hex fxRates "DEDUP_MATCH_EXISTING_OFFER"
            "DETERMINISTIC_SKU_MATCH" "serpapi_reconcile" 1 sku
            (normalize_condition raw.second_hand_condition) st
            { raw with
              parsed_attrs := snapshot_parsed_attrs raw.parsed_attrs
                (env.extract (raw.title_raw.getD "")) raw.second_hand_condition
                (normalize_condition raw.second_hand_condition),
              flags := some { is_multi_variant := false, is_contract := false } }
      | none =>
          detFallback env settings sha256hex budget fxRates (raw.title_raw.getD "")
            (env.extract (raw.title_raw.getD "")).model
            (env.extract (raw.title_raw.getD "")).storage
            (normalize_condition raw.second_hand_condition) st
            { raw with
              parsed_attrs := snapshot_parsed_attrs raw.parsed_attrs
                (env.extract (raw.title_raw.getD "")) raw.second_hand_condition
                (normalize_condition raw.second_hand_condition),
              flags := some { is_multi_variant := false, is_contract := false } }

/-- One iteration of the row loop of `reconcile_raw_offers`. -/
def processRow (env : ReconEnv) (settings : ReconSettings)
    (sha256hex : String → String) (budget : Int) (fxRates : Option FxRates)
    (st : RunState) (raw : RawOffer) : Except RowErr (RawOffer × RunState) :=
  rowBody env settings sha256hex budget fxRates
    { st with stats := { st.stats with scanned := st.stats.scanned + 1 } } raw

/-- The sequential row loop; a row-level exception aborts the whole
invocation (the source has no per-row handler). -/
def reconcileLoop (env : ReconEnv) (settings : ReconSettings)
    (sha256hex : String → String) (budget : Int) (fxRates : Option FxRates) :
    List RawOffer → RunState → List RawOffer →
    Except RowErr (RunState × List RawOffer)
  | [], st, acc => .ok (st, acc.reverse)
  | r :: rs, st, acc =>
      match processRow env settings sha256hex budget fxRates st r with
      | .error e => .error e
      | .ok (r', st') =>
          reconcileLoop env settings sha256hex budget fxRates rs st' (r' :: acc)

/-- The row selection: unmatched rows (optionally country-filtered), in
`ingested_at` ascending order (the list order of the raw table), first
`limit` rows. -/
def selectRaws (rawTable : List RawOffer) (country_code : Option String)
    (limit : Nat) : List RawOffer :=
  (rawTable.filter (fun r => r.matched_sku_id.isNone &&
    (if optTruthy country_code then
      r.country_code == pyUpperStr (country_code.getD "")
     else true))).take limit

/-- The per-invocation LLM budget:
`min(int(limit * llm_max_fraction_per_reconcile), int(llm_max_calls_per_reconcile))`. -/
def reconBudget (settings : ReconSettings) (limit : Nat) : Int :=
  min (ratTrunc (qMul (ratOfNat limit) settings.llm_max_fraction_per_reconcile))
    settings.llm_max_calls_per_reconcile

/-- The optional run-level FX rates: a failed `get_latest_fx_rates` is
tolerated (`fx_rates = None`). -/
def initialFxRates (env : ReconEnv) : Option FxRates :=
  match env.fxInitial with
  | .ok fx => some fx
  | .error _ => none

/-- The state the row loop starts from (`stats.llm_budget = max(0, budget)`). -/
def initState (db : DbState) (budget : Int) : RunState :=
  { db := db, stats := { llm_budget := (max 0 budget).toNat },
    calls := 0, offerSeq := 0 }

/-- `reconciliation.reconcile_raw_offers`: budget computation, one optional
FX fetch (failure tolerated), row selection and the sequential loop;
returns the stats (with `llm_external_calls` copied from the local
counter), the updated rows in scan order, and the final DB state. -/
def reconcile_raw_offers (env : ReconEnv) (settings : ReconSettings)
    (sha256hex : String → String) (rawTable : List RawOffer) (db : DbState)
    (limit : Nat) (country_code : Option String) :
    Except RowErr (ReconcileStats × List RawOffer × DbState) :=
  match reconcileLoop env settings sha256hex (reconBudget settings limit)
      (initialFxRates env) (selectRaws rawTable country_code limit)
      (initState db (reconBudget settings limit)) [] with
  | .error e => .error e
  | .ok (st, rows) =>
      .ok ({ st.stats with llm_external_calls := st.calls }, rows, st.db)

/-! ## Reconciliation: structural lemmas, claims C1, C3, C4, C5, C6 -/

theorem stAfterReuse_db (st : RunState) (pa : ParsedAttrs) :
    (stAfterReuse st pa).db = st.db := by
  unfold stAfterReuse; split <;> rfl

theorem stAfterReuse_calls (st : RunState) (pa : ParsedAttrs) :
    (stAfterReuse st pa).calls = st.calls := by
  unfold stAfterReuse; split <;> rfl

theorem stAfterReuse_created (st : RunState) (pa : ParsedAttrs) :
    (stAfterReuse st pa).stats.created_offers = st.stats.created_offers := by
  unfold stAfterReuse; split <;> rfl

theorem callGuard_lt {settings : ReconSettings} {budget : Int}
    {model : Option String} {calls : Nat} {attempted : Bool}
    (h : callGuard settings budget model calls attempted = true) :
    (calls : Int) < budget := by
  unfold callGuard at h
  simp only [Bool.and_eq_true, decide_eq_true_eq] at h
  exact h.1.2

theorem llmBlockA_spec (env : ReconEnv) (settings : ReconSettings)
    (budget : Int) (title : String) (model : Option String)
    (condition : String) (st : RunState) (raw : RawOffer) :
    (∃ pa, (llmBlockA env settings budget title model condition st raw).1 =
        { raw with parsed_attrs := pa }) ∧
    (llmBlockA env settings budget title model condition st raw).2.1.db = st.db ∧
    (llmBlockA env settings budget title model condition st raw).2.1.stats.created_offers
      = st.stats.created_offers ∧
    ((llmBlockA env settings budget title model condition st raw).2.1.calls = st.calls ∨
      ((llmBlockA env settings budget title model condition st raw).2.1.calls = st.calls + 1 ∧
        (st.calls : Int) < budget)) := by
  unfold llmBlockA
  split
  · rename_i hguard
    split
    · exact ⟨⟨_, rfl⟩, stAfterReuse_db st raw.parsed_attrs,
        stAfterReuse_created st raw.parsed_attrs,
        Or.inr ⟨rfl, callGuard_lt hguard⟩⟩
    · exact ⟨⟨_, rfl⟩, stAfterReuse_db st raw.parsed_attrs,
        stAfterReuse_created st raw.parsed_attrs,
        Or.inr ⟨rfl, callGuard_lt hguard⟩⟩
  · split
    · exact ⟨⟨raw.parsed_attrs, rfl⟩, stAfterReuse_db st raw.parsed_attrs,
        stAfterReuse_created st raw.parsed_attrs,
        Or.inl (stAfterReuse_calls st raw.parsed_attrs)⟩
    · exact ⟨⟨raw.parsed_attrs, rfl⟩, stAfterReuse_db st raw.parsed_attrs,
        stAfterReuse_created st raw.parsed_attrs,
        Or.inl (stAfterReuse_calls st raw.parsed_attrs)⟩

theorem llmBlockD_spec (env : ReconEnv) (settings : ReconSettings)
    (budget : Int) (title : String) (model storage : Option String)
    (condition : String) (st : RunState) (raw : RawOffer) :
    (∃ pa, (llmBlockD env settings budget title model storage condition st raw).1 =
        { raw with parsed_attrs := pa }) ∧
    (llmBlockD env settings budget title model storage condition st raw).2.1.db = st.db ∧
    (llmBlockD env settings budget title model storage condition st raw).2.1.stats.created_offers
      = st.stats.created_offers ∧
    ((llmBlockD env settings budget title model storage condition st raw).2.1.calls = st.calls ∨
      ((llmBlockD env settings budget title model storage condition st raw).2.1.calls = st.calls + 1 ∧
        (st.calls : Int) < budget)) := by
  unfold llmBlockD
  split
  · rename_i hguard
    split
    · exact ⟨⟨raw.parsed_attrs, rfl⟩, stAfterReuse_db st raw.parsed_attrs,
        stAfterReuse_created st raw.parsed_attrs,
        Or.inl (stAfterReuse_calls st raw.parsed_attrs)⟩
    · split
      · exact ⟨⟨_, rfl⟩, rfl, rfl, Or.inr ⟨rfl, callGuard_lt hguard⟩⟩
      · exact ⟨⟨_, rfl⟩, rfl, rfl, Or.inr ⟨rfl, callGuard_lt hguard⟩⟩
  · split
    · exact ⟨⟨raw.parsed_attrs, rfl⟩, rfl, rfl, Or.inl rfl⟩
    · exact ⟨⟨raw.parsed_attrs, rfl⟩, rfl, rfl, Or.inl rfl⟩
theorem focm_ok_db {env : ReconEnv} {db : DbState} {name : String}
    {m : Merchant} {db1 : DbState}
    (h : find_or_create_merchant env db name = .ok (m, db1)) :
    db1.offers = db.offers ∧ db1.catalog = db.catalog := by
  unfold find_or_create_merchant at h
  split at h
  · exact absurd h (by simp)
  · split at h
    · cases h; exact ⟨rfl, rfl⟩
    · cases h; exact ⟨rfl, rfl⟩

theorem focm_total {env : ReconEnv} (db : DbState) {name : String}
    (hm : env.merchantFails name = false) :
    ∃ m db1, find_or_create_merchant env db name = .ok (m, db1) := by
  unfold find_or_create_merchant
  rw [if_neg (by simp [hm])]
  split
  · exact ⟨_, _, rfl⟩
  · exact ⟨_, _, rfl⟩

theorem finishRow_ok_spec {env : ReconEnv} {sha256hex : String → String}
    {mr cr src cond : String} {conf pu : Rat} {sku : GoldenSku}
    {st : RunState} {raw raw' : RawOffer} {st' : RunState}
    (h : finishRow env sha256hex mr cr src conf sku cond pu st raw = .ok (raw', st')) :
    (∃ c, raw'.match_reason_codes = some [c]) ∧
    st'.calls = st.calls ∧
    ((st.db.offers.find? (fun o => o.dedup_key = dedupKeyOfRaw sha256hex raw)).isSome = true →
      st'.db.offers = st.db.offers ∧
      st'.stats.created_offers = st.stats.created_offers) := by
  unfold finishRow at h
  split at h
  · exact absurd h (by simp)
  · rename_i m db1 heq
    obtain ⟨hoff, _⟩ := focm_ok_db heq
    split at h
    · split at h
      · cases h
        exact ⟨⟨mr, rfl⟩, rfl, fun _ => ⟨hoff, rfl⟩⟩
      · cases h
        exact ⟨⟨"DEDUP_KEY_CONFLICT", rfl⟩, rfl, fun _ => ⟨hoff, rfl⟩⟩
    · rename_i hfindnone
      split at h
      · exact absurd h (by simp)
      · cases h
        refine ⟨⟨cr, rfl⟩, rfl, fun hs => absurd hs ?_⟩
        rw [hoff] at hfindnone
        simp [hfindnone]

theorem finishRow_calls {env : ReconEnv} {sha256hex : String → String}
    {mr cr src cond : String} {conf pu : Rat} {sku : GoldenSku}
    {st : RunState} {raw raw' : RawOffer} {st' : RunState}
    (h : finishRow env sha256hex mr cr src conf sku cond pu st raw = .ok (raw', st')) :
    st'.calls = st.calls := (finishRow_ok_spec h).2.1

theorem finishRow_existing_cases {env : ReconEnv} {sha256hex : String → String}
    {mr cr src cond : String} {conf pu : Rat} {sku : GoldenSku}
    {st : RunState} {raw raw' : RawOffer} {st' : RunState} {existing : Offer}
    (hfind : st.db.offers.find?
      (fun o => o.dedup_key = dedupKeyOfRaw sha256hex raw) = some existing)
    (h : finishRow env sha256hex mr cr src conf sku cond pu st raw = .ok (raw', st')) :
    st'.db.offers = st.db.offers ∧
    st'.stats.created_offers = st.stats.created_offers ∧
    (existing.sku_id = sku.id →
      raw'.matched_sku_id = some sku.id ∧
      raw'.match_confidence = some conf ∧
      raw'.match_reason_codes = some [mr] ∧
      st'.stats.matched_existing_offer = st.stats.matched_existing_offer + 1 ∧
      st'.stats.updated_raw_matches = st.stats.updated_raw_matches + 1) ∧
    (¬existing.sku_id = sku.id →
      raw'.matched_sku_id = raw.matched_sku_id ∧
      raw'.match_reason_codes = some ["DEDUP_KEY_CONFLICT"] ∧
      st'.stats.dedup_conflict = st.stats.dedup_conflict + 1 ∧
      st'.stats.matched_existing_offer = st.stats.matched_existing_offer) := by
  unfold finishRow at h
  split at h
  · exact absurd h (by simp)
  · rename_i m db1 heq
    obtain ⟨hoff, _⟩ := focm_ok_db heq
    split at h
    · rename_i existing2 hfind2
      rw [hoff, hfind] at hfind2
      cases hfind2
      split at h
      · rename_i hsk
        cases h
        exact ⟨hoff, rfl, fun _ => ⟨rfl, rfl, rfl, rfl, rfl⟩,
          fun hne => absurd hsk hne⟩
      · rename_i hsk
        cases h
        exact ⟨hoff, rfl, fun hk => absurd hk hsk,
          fun _ => ⟨rfl, rfl, rfl, rfl⟩⟩
    · rename_i hfindnone
      rw [hoff, hfind] at hfindnone
      cases hfindnone

theorem finishRow_total {env : ReconEnv} {sha256hex : String → String}
    {mr cr src cond : String} {conf pu : Rat} {sku : GoldenSku}
    {st : RunState} {raw : RawOffer}
    (hm : env.merchantFails raw.merchant_name = false)
    (hf : env.flushFails = false) :
    ∃ out, finishRow env sha256hex mr cr src conf sku cond pu st raw = .ok out := by
  unfold finishRow
  obtain ⟨m, db1, hm1⟩ := focm_total st.db hm
  rw [hm1]
  split
  · rename_i e heq
    exact absurd heq (by simp)
  · rename_i m2 db2 heq
    split
    · split
      · exact ⟨_, rfl⟩
      · exact ⟨_, rfl⟩
    · rw [if_neg (by simp [hf])]
      exact ⟨_, rfl⟩

theorem priceTail_ok_spec {env : ReconEnv} {sha256hex : String → String}
    {fxRates : Option FxRates} {mr cr src cond : String} {conf : Rat}
    {sku : GoldenSku} {st : RunState} {raw raw' : RawOffer} {st' : RunState}
    (h : priceTail env sha256hex fxRates mr cr src conf sku cond st raw = .ok (raw', st')) :
    (∃ c, raw'.match_reason_codes = some [c]) ∧
    st'.calls = st.calls ∧
    ((st.db.offers.find? (fun o => o.dedup_key = dedupKeyOfRaw sha256hex raw)).isSome = true →
      st'.db.offers = st.db.offers ∧
      st'.stats.created_offers = st.stats.created_offers) := by
  unfold priceTail at h
  split at h
  · cases h
    exact ⟨⟨"FX_UNAVAILABLE", rfl⟩, rfl, fun _ => ⟨rfl, rfl⟩⟩
  · exact finishRow_ok_spec h

theorem priceTail_total {env : ReconEnv} {sha256hex : String → String}
    {fxRates : Option FxRates} {mr cr src cond : String} {conf : Rat}
    {sku : GoldenSku} {st : RunState} {raw : RawOffer}
    (hm : env.merchantFails raw.merchant_name = false)
    (hf : env.flushFails = false) :
    ∃ out, priceTail env sha256hex fxRates mr cr src conf sku cond st raw = .ok out := by
  unfold priceTail
  split
  · exact ⟨_, rfl⟩
  · exact finishRow_total hm hf
theorem llmPath_ok_spec {env : ReconEnv} {settings : ReconSettings}
    {sha256hex : String → String} {budget : Int} {fxRates : Option FxRates}
    {title : String} {model : Option String} {condition : String}
    {st : RunState} {raw1 raw' : RawOffer} {st' : RunState}
    (h : llmPath env settings sha256hex budget fxRates title model condition
      st raw1 = .ok (raw', st')) :
    (∃ c, raw'.match_reason_codes = some [c]) ∧
    (st'.calls = st.calls ∨ (st'.calls = st.calls + 1 ∧ (st.calls : Int) < budget)) ∧
    ((st.db.offers.find? (fun o => o.dedup_key = dedupKeyOfRaw sha256hex raw1)).isSome = true →
      st'.db.offers = st.db.offers ∧
      st'.stats.created_offers = st.stats.created_offers) := by
  obtain ⟨⟨pa, hpa⟩, hdb, hcre, hcalls⟩ :=
    llmBlockA_spec env settings budget title model condition st raw1
  have hkey : dedupKeyOfRaw sha256hex
      (llmBlockA env settings budget title model condition st raw1).1 =
      dedupKeyOfRaw sha256hex raw1 := by
    rw [hpa]
    rfl
  unfold llmPath at h
  split at h
  · cases h
    exact ⟨⟨"MISSING_REQUIRED_ATTRS", rfl⟩, hcalls,
      fun _ => ⟨congrArg DbState.offers hdb, hcre⟩⟩
  · split at h
    · cases h
      exact ⟨⟨"SKU_NOT_IN_CATALOG", rfl⟩, hcalls,
        fun _ => ⟨congrArg DbState.offers hdb, hcre⟩⟩
    · rename_i sku hsku
      obtain ⟨hr, hc, hfindimp⟩ := priceTail_ok_spec h
      refine ⟨hr, ?_, fun hs => ?_⟩
      · rcases hcalls with h1 | ⟨h1, h2⟩
        · exact Or.inl (hc.trans h1)
        · exact Or.inr ⟨hc.trans h1, h2⟩
      · have hs2 : (((llmBlockA env settings budget title model condition
            st raw1).2.1.db.offers.find? (fun o => o.dedup_key = dedupKeyOfRaw
            sha256hex (llmBlockA env settings budget title model condition
            st raw1).1)).isSome = true) := by
          simp only [hdb, hkey]
          exact hs
        obtain ⟨ho, hcr⟩ := hfindimp hs2
        exact ⟨ho.trans (congrArg DbState.offers hdb), hcr.trans hcre⟩

theorem llmPath_total {env : ReconEnv} {settings : ReconSettings}
    {sha256hex : String → String} {budget : Int} {fxRates : Option FxRates}
    {title : String} {model : Option String} {condition : String}
    {st : RunState} {raw1 : RawOffer}
    (hm : ∀ name, env.merchantFails name = false)
    (hf : env.flushFails = false) :
    ∃ out, llmPath env settings sha256hex budget fxRates title model condition
      st raw1 = .ok out := by
  obtain ⟨⟨pa, hpa⟩, -, -, -⟩ :=
    llmBlockA_spec env settings budget title model condition st raw1
  unfold llmPath
  split
  · exact ⟨_, rfl⟩
  · split
    · exact ⟨_, rfl⟩
    · refine priceTail_total ?_ hf
      rw [hpa]
      exact hm _
theorem detFallback_ok_spec {env : ReconEnv} {settings : ReconSettings}
    {sha256hex : String → String} {budget : Int} {fxRates : Option FxRates}
    {title : String} {model storage : Option String} {condition : String}
    {st : RunState} {raw1 raw' : RawOffer} {st' : RunState}
    (h : detFallback env settings sha256hex budget fxRates title model storage
      condition st raw1 = .ok (raw', st')) :
    (∃ c, raw'.match_reason_codes = some [c]) ∧
    (st'.calls = st.calls ∨ (st'.calls = st.calls + 1 ∧ (st.calls : Int) < budget)) ∧
    ((st.db.offers.find? (fun o => o.dedup_key = dedupKeyOfRaw sha256hex raw1)).isSome = true →
      st'.db.offers = st.db.offers ∧
      st'.stats.created_offers = st.stats.created_offers) := by
  obtain ⟨⟨pa, hpa⟩, hdb, hcre, hcalls⟩ :=
    llmBlockD_spec env settings budget title model storage condition st raw1
  have hkey : dedupKeyOfRaw sha256hex
      (llmBlockD env settings budget title model storage condition st raw1).1 =
      dedupKeyOfRaw sha256hex raw1 := by
    rw [hpa]
    rfl
  unfold detFallback at h
  split at h
  · rename_i sku hsku
    obtain ⟨hr, hc, hfindimp⟩ := priceTail_ok_spec h
    refine ⟨hr, ?_, fun hs => ?_⟩
    · rcases hcalls with h1 | ⟨h1, h2⟩
      · exact Or.inl (hc.trans h1)
      · exact Or.inr ⟨hc.trans h1, h2⟩
    · have hs2 : (((llmBlockD env settings budget title model storage condition
          st raw1).2.1.db.offers.find? (fun o => o.dedup_key = dedupKeyOfRaw
          sha256hex (llmBlockD env settings budget title model storage condition
          st raw1).1)).isSome = true) := by
        simp only [hdb, hkey]
        exact hs
      obtain ⟨ho, hcr⟩ := hfindimp hs2
      exact ⟨ho.trans (congrArg DbState.offers hdb), hcr.trans hcre⟩
  · cases h
    exact ⟨⟨"SKU_NOT_IN_CATALOG", rfl⟩, hcalls,
      fun _ => ⟨congrArg DbState.offers hdb, hcre⟩⟩

theorem detFallback_total {env : ReconEnv} {settings : ReconSettings}
    {sha256hex : String → String} {budget : Int} {fxRates : Option FxRates}
    {title : String} {model storage : Option String} {condition : String}
    {st : RunState} {raw1 : RawOffer}
    (hm : ∀ name, env.merchantFails name = false)
    (hf : env.flushFails = false) :
    ∃ out, detFallback env settings sha256hex budget fxRates title model storage
      condition st raw1 = .ok out := by
  obtain ⟨⟨pa, hpa⟩, -, -, -⟩ :=
    llmBlockD_spec env settings budget title model storage condition st raw1
  unfold detFallback
  split
  · refine priceTail_total ?_ hf
    rw [hpa]
    exact hm _
  · exact ⟨_, rfl⟩

theorem rowBody_ok_spec {env : ReconEnv} {settings : ReconSettings}
    {sha256hex : String → String} {budget : Int} {fxRates : Option FxRates}
    {st : RunState} {raw raw' : RawOffer} {st' : RunState}
    (h : rowBody env settings sha256hex budget fxRates st raw = .ok (raw', st')) :
    (∃ c, raw'.match_reason_codes = some [c]) ∧
    (st'.calls = st.calls ∨ (st'.calls = st.calls + 1 ∧ (st.calls : Int) < budget)) ∧
    ((st.db.offers.find? (fun o => o.dedup_key = dedupKeyOfRaw sha256hex raw)).isSome = true →
      st'.db.offers = st.db.offers ∧
      st'.stats.created_offers = st.stats.created_offers) := by
  unfold rowBody at h
  split at h
  · cases h
    exact ⟨⟨"MISSING_TITLE", rfl⟩, Or.inl rfl, fun _ => ⟨rfl, rfl⟩⟩
  · split at h
    · cases h
      exact ⟨⟨"SKIP_MULTI_VARIANT", rfl⟩, Or.inl rfl, fun _ => ⟨rfl, rfl⟩⟩
    · split at h
      · cases h
        exact ⟨⟨"SKIP_CONTRACT", rfl⟩, Or.inl rfl, fun _ => ⟨rfl, rfl⟩⟩
      · split at h
        · obtain ⟨hr, hc, himp⟩ := llmPath_ok_spec h
          exact ⟨hr, hc, fun hs => himp hs⟩
        · split at h
          · obtain ⟨hr, hc, himp⟩ := priceTail_ok_spec h
            exact ⟨hr, Or.inl hc, fun hs => himp hs⟩
          · obtain ⟨hr, hc, himp⟩ := detFallback_ok_spec h
            exact ⟨hr, hc, fun hs => himp hs⟩

theorem rowBody_total {env : ReconEnv} {settings : ReconSettings}
    {sha256hex : String → String} {budget : Int} {fxRates : Option FxRates}
    {st : RunState} {raw : RawOffer}
    (hm : ∀ name, env.merchantFails name = false)
    (hf : env.flushFails = false) :
    ∃ out, rowBody env settings sha256hex budget fxRates st raw = .ok out := by
  unfold rowBody
  split
  · exact ⟨_, rfl⟩
  · split
    · exact ⟨_, rfl⟩
    · split
      · exact ⟨_, rfl⟩
      · split
        · exact llmPath_total hm hf
        · split
          · exact priceTail_total (hm _) hf
          · exact detFallback_total hm hf

theorem processRow_ok_spec {env : ReconEnv} {settings : ReconSettings}
    {sha256hex : String → String} {budget : Int} {fxRates : Option FxRates}
    {st : RunState} {raw raw' : RawOffer} {st' : RunState}
    (h : processRow env settings sha256hex budget fxRates st raw = .ok (raw', st')) :
    (∃ c, raw'.match_reason_codes = some [c]) ∧
    (st'.calls = st.calls ∨ (st'.calls = st.calls + 1 ∧ (st.calls : Int) < budget)) ∧
    ((st.db.offers.find? (fun o => o.dedup_key = dedupKeyOfRaw sha256hex raw)).isSome = true →
      st'.db.offers = st.db.offers ∧
      st'.stats.created_offers = st.stats.created_offers) := by
  unfold processRow at h
  obtain ⟨hr, hc, himp⟩ := rowBody_ok_spec h
  exact ⟨hr, hc, fun hs => himp hs⟩

theorem processRow_total {env : ReconEnv} {settings : ReconSettings}
    {sha256hex : String → String} {budget : Int} {fxRates : Option FxRates}
    {st : RunState} {raw : RawOffer}
    (hm : ∀ name, env.merchantFails name = false)
    (hf : env.flushFails = false) :
    ∃ out, processRow env settings sha256hex budget fxRates st raw = .ok out := by
  unfold processRow
  exact rowBody_total hm hf
theorem reconcileLoop_calls {env : ReconEnv} {settings : ReconSettings}
    {sha256hex : String → String} {budget : Int} {fxRates : Option FxRates} :
    ∀ (rs : List RawOffer) (st : RunState) (acc : List RawOffer)
      (st' : RunState) (rows : List RawOffer),
    reconcileLoop env settings sha256hex budget fxRates rs st acc = .ok (st', rows) →
    (st.calls : Int) ≤ max budget 0 → (st'.calls : Int) ≤ max budget 0 := by
  intro rs
  induction rs with
  | nil =>
      intro st acc st' rows h hst
      unfold reconcileLoop at h
      cases h
      exact hst
  | cons r rs ih =>
      intro st acc st' rows h hst
      unfold reconcileLoop at h
      split at h
      · exact absurd h (by simp)
      · rename_i r2 st2 heq
        refine ih st2 (r2 :: acc) st' rows h ?_
        rcases (processRow_ok_spec heq).2.1 with h1 | ⟨h1, h2⟩
        · rw [h1]; exact hst
        · rw [h1]
          have := le_max_left budget (0 : Int)
          push_cast
          omega

theorem reconcileLoop_reasons {env : ReconEnv} {settings : ReconSettings}
    {sha256hex : String → String} {budget : Int} {fxRates : Option FxRates} :
    ∀ (rs : List RawOffer) (st : RunState) (acc : List RawOffer)
      (st' : RunState) (rows : List RawOffer),
    reconcileLoop env settings sha256hex budget fxRates rs st acc = .ok (st', rows) →
    (∀ r ∈ acc, ∃ c, r.match_reason_codes = some [c]) →
    ∀ r ∈ rows, ∃ c, r.match_reason_codes = some [c] := by
  intro rs
  induction rs with
  | nil =>
      intro st acc st' rows h hacc r hr
      unfold reconcileLoop at h
      cases h
      exact hacc r (List.mem_reverse.mp hr)
  | cons r0 rs ih =>
      intro st acc st' rows h hacc r hr
      unfold reconcileLoop at h
      split at h
      · exact absurd h (by simp)
      · rename_i r2 st2 heq
        refine ih st2 (r2 :: acc) st' rows h ?_ r hr
        intro q hq
        rcases List.mem_cons.mp hq with hq1 | hq2
        · subst hq1
          exact (processRow_ok_spec heq).1
        · exact hacc q hq2

theorem reconcileLoop_total {env : ReconEnv} {settings : ReconSettings}
    {sha256hex : String → String} {budget : Int} {fxRates : Option FxRates}
    (hm : ∀ name, env.merchantFails name = false)
    (hf : env.flushFails = false) :
    ∀ (rs : List RawOffer) (st : RunState) (acc : List RawOffer),
    ∃ out, reconcileLoop env settings sha256hex budget fxRates rs st acc = .ok out := by
  intro rs
  induction rs with
  | nil =>
      intro st acc
      exact ⟨_, rfl⟩
  | cons r rs ih =>
      intro st acc
      obtain ⟨⟨r2, st2⟩, hout⟩ :=
        @processRow_total env settings sha256hex budget fxRates st r hm hf
      unfold reconcileLoop
      rw [hout]
      exact ih st2 (r2 :: acc)
theorem fxRetry_spec (env : FxEnv) (amount : Rat) (cur : String) :
    (fxRetry env amount cur true).2 = 1 ∧
    (∀ fresh r, env.fetchForced = .ok fresh → lookupRate fresh cur = some r →
      0 < r → (fxRetry env amount cur true).1 = .ok (amount / r)) ∧
    (∀ fresh, env.fetchForced = .ok fresh →
      rateBad (lookupRate fresh cur) = true →
      (fxRetry env amount cur true).1 = .error .fxError) ∧
    (∀ e, env.fetchForced = .error e →
      (fxRetry env amount cur true).1 = .error e) := by
  refine ⟨?_, ?_, ?_, ?_⟩
  · unfold fxRetry
    rw [if_pos rfl]
    split
    · rfl
    · split
      · split <;> rfl
      · rfl
  · intro fresh r hforce hlook hr
    unfold fxRetry
    rw [if_pos rfl, hforce]
    split
    · rename_i e heq
      exact absurd heq (by simp)
    · rename_i fresh2 heq
      injection heq with h
      subst h
      split
      · rename_i r2 heq2
        rw [hlook] at heq2
        cases heq2
        rw [if_neg (not_le.mpr hr), qDiv_eq_div]
      · rename_i heq2
        rw [hlook] at heq2
        cases heq2
  · intro fresh hforce hbad
    unfold fxRetry
    rw [if_pos rfl, hforce]
    split
    · rename_i e heq
      exact absurd heq (by simp)
    · rename_i fresh2 heq
      injection heq with h
      subst h
      split
      · rename_i r2 heq2
        rw [heq2] at hbad
        unfold rateBad at hbad
        rw [if_pos (by simpa using hbad)]
      · rfl
  · intro e hforce
    unfold fxRetry
    rw [if_pos rfl, hforce]

theorem convert_bad_rate {env : FxEnv} {amount : Rat} {currency : String}
    {fx : FxRates} (hcur : ¬pyUpperStr currency = "USD")
    (hbad : rateBad (lookupRate fx (pyUpperStr currency)) = true) :
    convert_to_usd env amount currency (some fx) true =
      fxRetry env amount (pyUpperStr currency) true := by
  unfold convert_to_usd
  rw [if_neg hcur]
  split
  · rename_i e heq
    exact absurd heq (by simp [ratesOrCached])
  · rename_i fx2 heq
    have hfx : fx2 = fx := by
      simpa [ratesOrCached] using heq.symm
    subst hfx
    split
    · rename_i r2 heq2
      rw [heq2] at hbad
      unfold rateBad at hbad
      rw [if_pos (by simpa using hbad)]
    · rfl
/-- C6.  `convert_to_usd` returns the amount unchanged for USD, divides by
the rate (1 USD = rates[CCY] units of CCY) for a known positive rate,
retries exactly once with `force_refresh=True` on a missing or non-positive
rate before failing with `FxError`; in the reconciler a USD row always gets
`price_usd` (even with no run-level rates) while a non-USD row without
rates is skipped as `FX_UNAVAILABLE`. -/
theorem convert_to_usd_spec (env : FxEnv) (amount r : Rat) (currency : String)
    (fx fresh : FxRates) (rates : Option FxRates) (retry : Bool)
    (renv : ReconEnv) (sha256hex : String → String) (fxRates : Option FxRates)
    (mr cr src cond : String) (conf : Rat) (sku : GoldenSku)
    (st : RunState) (raw : RawOffer) :
    (pyUpperStr currency = "USD" →
      convert_to_usd env amount currency rates retry = (.ok amount, 0)) ∧
    (¬pyUpperStr currency = "USD" →
      lookupRate fx (pyUpperStr currency) = some r → 0 < r →
      convert_to_usd env amount currency (some fx) retry = (.ok (amount / r), 0)) ∧
    (¬pyUpperStr currency = "USD" →
      rateBad (lookupRate fx (pyUpperStr currency)) = true →
      (convert_to_usd env amount currency (some fx) true).2 = 1 ∧
      (env.fetchForced = .ok fresh →
        lookupRate fresh (pyUpperStr currency) = some r → 0 < r →
        (convert_to_usd env amount currency (some fx) true).1 = .ok (amount / r)) ∧
      (env.fetchForced = .ok fresh →
        rateBad (lookupRate fresh (pyUpperStr currency)) = true →
        (convert_to_usd env amount currency (some fx) true).1 = .error .fxError) ∧
      (∀ e, env.fetchForced = .error e →
        (convert_to_usd env amount currency (some fx) true).1 = .error e)) ∧
    (pyUpperStr raw.currency = "USD" →
      priceTail renv sha256hex fxRates mr cr src conf sku cond st raw =
        finishRow renv sha256hex mr cr src conf sku cond
          (round2 raw.price_local) st raw) ∧
    (¬pyUpperStr raw.currency = "USD" →
      priceTail renv sha256hex none mr cr src conf sku cond st raw =
        .ok ({ raw with match_reason_codes := some ["FX_UNAVAILABLE"] },
             { st with stats := { st.stats with
                 skipped_fx := st.stats.skipped_fx + 1 } })) := by
  refine ⟨?_, ?_, ?_, ?_, ?_⟩
  · intro hcur
    unfold convert_to_usd
    rw [if_pos hcur]
  · intro hcur hlook hr
    unfold convert_to_usd
    rw [if_neg hcur]
    split
    · rename_i e heq
      exact absurd heq (by simp [ratesOrCached])
    · rename_i fx2 heq
      have hfx : fx2 = fx := by simpa [ratesOrCached] using heq.symm
      subst hfx
      split
      · rename_i r2 heq2
        rw [hlook] at heq2
        cases heq2
        rw [if_neg (not_le.mpr hr), qDiv_eq_div]
      · rename_i heq2
        rw [hlook] at heq2
        cases heq2
  · intro hcur hbad
    rw [convert_bad_rate hcur hbad]
    obtain ⟨h1, h2, h3, h4⟩ := fxRetry_spec env amount (pyUpperStr currency)
    exact ⟨h1, fun hf hl hr => h2 fresh r hf hl hr,
      fun hf hb => h3 fresh hf hb, h4⟩
  · intro hcur
    have hc : convert_price_usd renv.fx raw.price_local raw.currency fxRates =
        some (round2 raw.price_local) := by
      unfold convert_price_usd
      rw [if_pos hcur]
    unfold priceTail
    split
    · rename_i heq
      rw [hc] at heq
      cases heq
    · rename_i pu heq
      rw [hc] at heq
      cases heq
      rfl
  · intro hcur
    have hc : convert_price_usd renv.fx raw.price_local raw.currency none =
        none := by
      unfold convert_price_usd
      rw [if_neg hcur]
    unfold priceTail
    split
    · rfl
    · rename_i pu heq
      rw [hc] at heq
      cases heq
theorem reconcileLoop_ne_error {env : ReconEnv} {settings : ReconSettings}
    {sha256hex : String → String} {budget : Int} {fxRates : Option FxRates}
    (hm : ∀ name, env.merchantFails name = false)
    (hf : env.flushFails = false)
    (rs : List RawOffer) (st : RunState) (acc : List RawOffer) (e : RowErr) :
    ¬reconcileLoop env settings sha256hex budget fxRates rs st acc = .error e := by
  obtain ⟨out, hout⟩ := reconcileLoop_total hm hf rs st acc
  intro h
  rw [hout] at h
  exact absurd h (by simp)

/-- C1.  Whenever the dedup key computed for a raw row already belongs to an
existing `Offer`, the promotion tail never creates a new `Offer`: if the
existing offer's `sku_id` equals the resolved SKU's id the raw row is
linked (`matched_sku_id` set, `matched_existing_offer` and
`updated_raw_matches` bumped), otherwise the row is recorded as
`DEDUP_KEY_CONFLICT` and left unlinked; consequently a full `processRow`
step on such a row leaves the offers table and `created_offers` unchanged,
so reprocessing the same raw row never creates a duplicate `Offer`. -/
theorem dedup_key_prevents_duplicate_offers
    (env : ReconEnv) (settings : ReconSettings) (sha256hex : String → String)
    (budget : Int) (fxRates : Option FxRates) (mr cr src cond : String)
    (conf pu : Rat) (sku : GoldenSku) (st : RunState) (raw : RawOffer)
    (existing : Offer)
    (hfind : st.db.offers.find?
      (fun o => o.dedup_key = dedupKeyOfRaw sha256hex raw) = some existing) :
    (∀ raw' st',
      finishRow env sha256hex mr cr src conf sku cond pu st raw = .ok (raw', st') →
      st'.db.offers = st.db.offers ∧
      st'.stats.created_offers = st.stats.created_offers ∧
      (existing.sku_id = sku.id →
        raw'.matched_sku_id = some sku.id ∧
        raw'.match_confidence = some conf ∧
        raw'.match_reason_codes = some [mr] ∧
        st'.stats.matched_existing_offer = st.stats.matched_existing_offer + 1 ∧
        st'.stats.updated_raw_matches = st.stats.updated_raw_matches + 1) ∧
      (¬existing.sku_id = sku.id →
        raw'.matched_sku_id = raw.matched_sku_id ∧
        raw'.match_reason_codes = some ["DEDUP_KEY_CONFLICT"] ∧
        st'.stats.dedup_conflict = st.stats.dedup_conflict + 1 ∧
        st'.stats.matched_existing_offer = st.stats.matched_existing_offer)) ∧
    (∀ raw' st',
      processRow env settings sha256hex budget fxRates st raw = .ok (raw', st') →
      st'.db.offers = st.db.offers ∧
      st'.stats.created_offers = st.stats.created_offers) := by
  constructor
  · intro raw' st' h
    exact finishRow_existing_cases hfind h
  · intro raw' st' h
    exact (processRow_ok_spec h).2.2 (by rw [hfind]; rfl)

/-- C3.  The number of external LLM calls an invocation of
`reconcile_raw_offers` reports in `stats.llm_external_calls` is at most
`min(floor(limit * llm_max_fraction_per_reconcile),
llm_max_calls_per_reconcile)` (the settings are pydantic-validated to a
fraction in `[0, 1]` and a non-negative max, whence the hypotheses). -/
theorem llm_calls_within_budget
    (env : ReconEnv) (settings : ReconSettings) (sha256hex : String → String)
    (rawTable : List RawOffer) (db : DbState) (limit : Nat)
    (country_code : Option String)
    (hfrac : 0 ≤ settings.llm_max_fraction_per_reconcile)
    (hmax : 0 ≤ settings.llm_max_calls_per_reconcile) :
    match reconcile_raw_offers env settings sha256hex rawTable db limit
        country_code with
    | .ok (stats, _, _) => (stats.llm_external_calls : Int) ≤
        min ⌊(limit : Rat) * settings.llm_max_fraction_per_reconcile⌋
          settings.llm_max_calls_per_reconcile
    | .error _ => True := by
  have hx : (0 : Rat) ≤ qMul (ratOfNat limit) settings.llm_max_fraction_per_reconcile := by
    rw [qMul_eq_mul, ratOfNat_eq]
    exact mul_nonneg (by positivity) hfrac
  have hbud : ratTrunc (qMul (ratOfNat limit) settings.llm_max_fraction_per_reconcile) =
      ⌊(limit : Rat) * settings.llm_max_fraction_per_reconcile⌋ := by
    rw [ratTrunc_eq_floor hx, qMul_eq_mul, ratOfNat_eq]
  have hbud0 : 0 ≤ reconBudget settings limit := by
    unfold reconBudget
    refine le_min ?_ hmax
    rw [hbud]
    exact Int.floor_nonneg.mpr (by rw [qMul_eq_mul, ratOfNat_eq] at hx; exact hx)
  cases hrun : reconcile_raw_offers env settings sha256hex rawTable db limit
      country_code with
  | error e => exact trivial
  | ok out =>
      obtain ⟨stats, rows, db1⟩ := out
      unfold reconcile_raw_offers at hrun
      split at hrun
      · exact absurd hrun (by simp)
      · rename_i st2 rows2 hloop
        injection hrun with h1
        injection h1 with hstats h2
        subst hstats
        have hcalls := reconcileLoop_calls _ _ _ _ _ hloop (by simp [initState])
        show ((st2.calls : Int) ≤ _)
        calc (st2.calls : Int) ≤ max (reconBudget settings limit) 0 := hcalls
          _ = reconBudget settings limit := max_eq_left hbud0
          _ = min ⌊(limit : Rat) * settings.llm_max_fraction_per_reconcile⌋
              settings.llm_max_calls_per_reconcile := by
                unfold reconBudget
                rw [hbud]
/-- C4.  Every raw row returned by a completed `reconcile_raw_offers` pass
carries a non-empty `match_reason_codes` list: every branch of the per-row
state machine is terminal and writes a reason code. -/
theorem scanned_rows_always_carry_reason_codes
    (env : ReconEnv) (settings : ReconSettings) (sha256hex : String → String)
    (rawTable : List RawOffer) (db : DbState) (limit : Nat)
    (country_code : Option String) :
    match reconcile_raw_offers env settings sha256hex rawTable db limit
        country_code with
    | .ok (_, rows, _) => ∀ r ∈ rows, ∃ l, r.match_reason_codes = some l ∧ l ≠ []
    | .error _ => True := by
  cases hrun : reconcile_raw_offers env settings sha256hex rawTable db limit
      country_code with
  | error e => exact trivial
  | ok out =>
      obtain ⟨stats, rows, db1⟩ := out
      unfold reconcile_raw_offers at hrun
      split at hrun
      · exact absurd hrun (by simp)
      · rename_i st2 rows2 hloop
        injection hrun with h1
        injection h1 with hstats h2
        injection h2 with hrows hdb
        subst hrows
        intro r hr
        obtain ⟨c, hc⟩ := reconcileLoop_reasons _ _ _ _ _ hloop
          (by intro q hq; exact absurd hq (List.not_mem_nil q)) r hr
        exact ⟨[c], hc, by simp⟩

/-- C5 (amended).  `reconcile_raw_offers` completes and returns stats as
long as no DB operation raises: with no merchant-step or offer-flush
exception injected, every selected row is processed and the invocation
returns `.ok`.  (The per-row loop has no exception handler, so this cannot
be strengthened to tolerate row-level DB failures; see the counterexample.) -/
theorem reconcile_completes_without_db_exceptions
    (env : ReconEnv) (settings : ReconSettings) (sha256hex : String → String)
    (rawTable : List RawOffer) (db : DbState) (limit : Nat)
    (country_code : Option String)
    (hm : ∀ name, env.merchantFails name = false)
    (hf : env.flushFails = false) :
    ∃ out, reconcile_raw_offers env settings sha256hex rawTable db limit
      country_code = .ok out := by
  unfold reconcile_raw_offers
  split
  · rename_i e heq
    exact absurd heq (reconcileLoop_ne_error hm hf _ _ _ _)
  · exact ⟨_, rfl⟩
/-- A toy digest for the concrete instances (injective enough here). -/
def wSha (s : String) : String := "H:" ++ s

def wFxEnv : FxEnv := { fetchCached := .error .fxError,
                        fetchForced := .error .fxError }

/-- Concrete environment: extractor resolves the title "t" fully, LLM and
FX unavailable, no DB failures. -/
def wEnv : ReconEnv :=
  { extract := fun t =>
      if t = "t" then
        { model := some "iphone-16", storage := some "256gb",
          color := some "black", confidence := "high" }
      else {},
    llm := fun _ _ _ _ => none,
    fx := wFxEnv,
    fxInitial := .error .fxError,
    merchantFails := fun _ => false,
    flushFails := false,
    offerId := fun n => toString n,
    fingerprint := fun _ => "fp" }

def wSettings : ReconSettings :=
  { llm_enabled := false, openai_api_key := "",
    llm_max_calls_per_reconcile := 5,
    llm_max_fraction_per_reconcile := mkRat 1 2 }

def wSku : GoldenSku :=
  { id := 7, sku_key := "iphone-16-256gb-black-new", model := "iphone-16",
    condition := "new", storage := "256gb" }

def wRaw : RawOffer :=
  { raw_offer_id := "r1", title_raw := some "t", merchant_name := "Shop",
    price_local := mkRat 100 1, currency := "USD",
    product_link := some "http://x", country_code := "us" }

/-- An offer already carrying the dedup key of `wRaw`, for the same SKU. -/
def wOffer : Offer :=
  { offer_id := "o1", sku_id := 7, merchant_id := 1,
    dedup_key := dedupKeyOfRaw wSha wRaw, country_code := "US",
    price := mkRat 100 1, currency := "USD", price_usd := mkRat 100 1,
    final_effective_price := mkRat 100 1, condition := "new",
    source := "serpapi_reconcile", match_confidence := mkRat 1 1,
    match_reason_codes := ["DETERMINISTIC_SKU_MATCH"] }

def wSt : RunState :=
  { db := { catalog := [wSku], offers := [wOffer], merchants := [] },
    stats := {}, calls := 0, offerSeq := 0 }

/-- Witness for C1 at a concrete state holding a dedup-key collision. -/
theorem dedup_key_prevents_duplicate_offers_witness :
    (wSt.db.offers.find?
      (fun o => o.dedup_key = dedupKeyOfRaw wSha wRaw) = some wOffer) ∧
    (∀ raw' st',
      processRow wEnv wSettings wSha 5 none wSt wRaw = .ok (raw', st') →
      st'.db.offers = wSt.db.offers ∧
      st'.stats.created_offers = wSt.stats.created_offers) ∧
    ((match processRow wEnv wSettings wSha 5 none wSt wRaw with
      | .ok (raw', st') => decide (raw'.matched_sku_id = some 7) &&
          decide (st'.db.offers.length = 1) &&
          decide (st'.stats.matched_existing_offer = 1)
      | .error _ => false) = true) :=
  ⟨by decide,
   (dedup_key_prevents_duplicate_offers wEnv wSettings wSha 5 none
     "DEDUP_MATCH_EXISTING_OFFER" "DETERMINISTIC_SKU_MATCH" "serpapi_reconcile"
     "new" (mkRat 1 1) (mkRat 100 1) wSku wSt wRaw wOffer (by decide)).2,
   by decide⟩
def c5Db : DbState := { catalog := [wSku], offers := [], merchants := [] }

/-- Environment identical to `wEnv` except every merchant lookup/creation
raises (models a DB failure at `_find_or_create_merchant`). -/
def c5Env : ReconEnv := { wEnv with merchantFails := fun _ => true }

/-- C5 counterexample: one promotable USD row; the merchant step raises and
the whole invocation aborts - no per-row handler exists. -/
theorem reconcile_row_exception_aborts_run :
    reconcile_raw_offers c5Env wSettings wSha [wRaw] c5Db 10 none =
      .error .dbError := by rfl

/-- Witness for the amended C5 theorem at a concrete environment. -/
theorem reconcile_completes_without_db_exceptions_witness :
    (∀ name, wEnv.merchantFails name = false) ∧ wEnv.flushFails = false ∧
    (∃ out, reconcile_raw_offers wEnv wSettings wSha [wRaw] c5Db 10 none =
      .ok out) :=
  ⟨fun _ => rfl, rfl,
   reconcile_completes_without_db_exceptions wEnv wSettings wSha [wRaw] c5Db
     10 none (fun _ => rfl) rfl⟩

/-- Witness for C3 at a concrete invocation. -/
theorem llm_calls_within_budget_witness :
    (0 : Rat) ≤ wSettings.llm_max_fraction_per_reconcile ∧
    (0 : Int) ≤ wSettings.llm_max_calls_per_reconcile ∧
    (match reconcile_raw_offers wEnv wSettings wSha [wRaw] c5Db 10 none with
     | .ok (stats, _, _) => (stats.llm_external_calls : Int) ≤
         min ⌊((10 : Nat) : Rat) * wSettings.llm_max_fraction_per_reconcile⌋
           wSettings.llm_max_calls_per_reconcile
     | .error _ => True) :=
  ⟨by decide, by decide,
   llm_calls_within_budget wEnv wSettings wSha [wRaw] c5Db 10 none
     (by decide) (by decide)⟩

/-- Witness for C4 at a concrete invocation. -/
theorem scanned_rows_always_carry_reason_codes_witness :
    match reconcile_raw_offers wEnv wSettings wSha [wRaw] c5Db 10 none with
    | .ok (_, rows, _) => ∀ r ∈ rows, ∃ l, r.match_reason_codes = some l ∧ l ≠ []
    | .error _ => True :=
  scanned_rows_always_carry_reason_codes wEnv wSettings wSha [wRaw] c5Db 10 none

def wRates : FxRates :=
  { base := "USD", timestamp := 0, rates := [("EUR", mkRat 9 10)] }

def w6Fx : FxEnv := { fetchCached := .error .fxError, fetchForced := .ok wRates }

def c6RawEur : RawOffer :=
  { raw_offer_id := "r6", title_raw := some "t", merchant_name := "Shop",
    price_local := mkRat 90 1, currency := "EUR", country_code := "de" }

/-- Witness for C6: USD passthrough, EUR division, missing-rate single
forced retry that still fails, and the reconciler-side FX skip. -/
theorem convert_to_usd_spec_witness :
    convert_to_usd w6Fx (mkRat 7 1) "usd" none true = (.ok (mkRat 7 1), 0) ∧
    convert_to_usd w6Fx (mkRat 9 1) "eur" (some wRates) false =
      (.ok (mkRat 9 1 / mkRat 9 10), 0) ∧
    (convert_to_usd w6Fx (mkRat 9 1) "jpy" (some wRates) true).2 = 1 ∧
    (convert_to_usd w6Fx (mkRat 9 1) "jpy" (some wRates) true).1 =
      .error .fxError ∧
    priceTail wEnv wSha none "m" "c" "s" (mkRat 1 1) wSku "new" wSt c6RawEur =
      .ok ({ c6RawEur with match_reason_codes := some ["FX_UNAVAILABLE"] },
           { wSt with stats := { wSt.stats with
               skipped_fx := wSt.stats.skipped_fx + 1 } }) :=
  ⟨(convert_to_usd_spec w6Fx (mkRat 7 1) (mkRat 0 1) "usd" wRates wRates none
      true wEnv wSha none "m" "c" "s" "new" (mkRat 1 1) wSku wSt
      c6RawEur).1 (by decide),
   (convert_to_usd_spec w6Fx (mkRat 9 1) (mkRat 9 10) "eur" wRates wRates
      (some wRates) false wEnv wSha none "m" "c" "s" "new" (mkRat 1 1) wSku wSt
      c6RawEur).2.1 (by decide) (by decide) (by decide),
   ((convert_to_usd_spec w6Fx (mkRat 9 1) (mkRat 0 1) "jpy" wRates wRates
      (some wRates) true wEnv wSha none "m" "c" "s" "new" (mkRat 1 1) wSku wSt
      c6RawEur).2.2.1 (by decide) (by decide)).1,
   ((convert_to_usd_spec w6Fx (mkRat 9 1) (mkRat 0 1) "jpy" wRates wRates
      (some wRates) true wEnv wSha none "m" "c" "s" "new" (mkRat 1 1) wSku wSt
      c6RawEur).2.2.1 (by decide) (by decide)).2.2.1 rfl (by decide),
   (convert_to_usd_spec w6Fx (mkRat 9 1) (mkRat 0 1) "eur" wRates wRates
      (some wRates) true wEnv wSha none "m" "c" "s" "new" (mkRat 1 1) wSku wSt
      c6RawEur).2.2.2.2 (by decide)⟩

end MarketCompass
